import Mathlib

set_option maxHeartbeats 1000000

/-!
Shallow embedding of `src/scripts/inference.py` (gesture-generation inference
driver).  Numeric values (times, pose channels) are modelled over the exact
rationals `ℚ`; machine floats in the source are treated as exact arithmetic.
Pose frames are vectors of dimension `pose_dim`; a frame is modelled as an
element of an abstract `ℚ`-module `V` (instantiated with `V = ℚ` in concrete
witnesses), and a pose sequence as a `List V`.  Fallible operations (torch
tensor assignments with mismatched shapes, `np.vstack` of an empty list, and
predictor failures) are modelled with `Except`.
-/

/-- A transcript word record `[word, word_s, word_e]` as built in `main`
(lines 140-148): text plus start and end time in seconds. -/
structure Word where
  text : String
  start_time : ℚ
  end_time : ℚ
deriving DecidableEq

/-- The vocabulary (`lang_model`) loaded from the vocab cache: reserved
start/end/unknown sentinel indices plus a finite word-to-index map.
Read-only for the whole run. -/
structure LangModel where
  SOS_token : ℤ
  EOS_token : ℤ
  UNK_token : ℤ
  word2index : List (String × ℤ)
deriving DecidableEq

/-- Modelled from the spec: `lang_model.get_word_index` is defined outside
`src/` (only its call site at line 62 of `inference.py` is in the
repository).  Per the spec (§4.2), it returns the mapped index if the word
is known, else the UNKNOWN sentinel. -/
def LangModel.get_word_index (lm : LangModel) (w : String) : ℤ :=
  match lm.word2index.lookup w with
  | some i => i
  | none => lm.UNK_token

/-- The subset of the checkpoint `args` that `generate_gestures` and `main`
read: `n_poses`, `n_pre_poses`, `motion_resampling_framerate`. -/
structure Args where
  n_poses : ℕ
  n_pre_poses : ℕ
  motion_resampling_framerate : ℚ
deriving DecidableEq

/-- Python slice `xs[-k:]` on a list.  For `k = 0` this is `xs[-0:] = xs[0:]`,
i.e. the whole list; for `k ≥ len` it is also the whole list. -/
def pyTail (k : ℕ) (xs : List α) : List α :=
  if k = 0 then xs else xs.drop (xs.length - k)

/-- Python slice `xs[:-k]` on a list.  For `k = 0` this is `xs[:-0] = xs[:0]`,
i.e. the empty list; for `k ≥ len` it is also empty. -/
def pyDropTail (k : ℕ) (xs : List α) : List α :=
  if k = 0 then [] else xs.take (xs.length - k)

/-- Line 37: `unit_time = args.n_poses / args.motion_resampling_framerate`. -/
def unit_time (a : Args) : ℚ := (a.n_poses : ℚ) / a.motion_resampling_framerate

/-- Line 38: `stride_time = (args.n_poses - args.n_pre_poses) / args.motion_resampling_framerate`. -/
def stride_time (a : Args) : ℚ :=
  ((a.n_poses : ℚ) - (a.n_pre_poses : ℚ)) / a.motion_resampling_framerate

/-- Lines 39-42: `num_subdivision = 1` when `clip_length < unit_time`, else
`math.ceil((clip_length - unit_time) / stride_time) + 1`. -/
def num_subdivision (a : Args) (clip_length : ℚ) : ℤ :=
  if clip_length < unit_time a then 1
  else ⌈(clip_length - unit_time a) / stride_time a⌉ + 1

/-- Line 46: `num_subdivision = min(num_subdivision, 59)` (debug cap). -/
def num_subdivision_capped (a : Args) (clip_length : ℚ) : ℤ :=
  min (num_subdivision a clip_length) 59

/-- Lines 56-62: build `word_indices = np.zeros(len(word_seq) + 2)`, set
`word_indices[0] = SOS`, `word_indices[-1] = EOS`, and then
`word_indices[w_i + 1] = lang_model.get_word_index(word[0])` for each word. -/
def encodeWords (lm : LangModel) (ws : List String) : List ℤ :=
  let word_indices := List.replicate (ws.length + 2) (0 : ℤ)
  let word_indices := word_indices.set 0 lm.SOS_token
  let word_indices := word_indices.set (ws.length + 1) lm.EOS_token
  ws.enum.foldl (fun acc p => acc.set (p.1 + 1) (lm.get_word_index p.2)) word_indices

/-- Lines 82-86: the overlap cross-fade.  With `n = len(last_poses)`, for
`j` in `range(len(last_poses))` the mutation
`out_seq[j] = last_poses[j] * (n - j) / (n + 1) + out_seq[j] * (j + 1) / (n + 1)`
is applied in place; frames of `out_seq` at positions `≥ len(last_poses)`
are untouched. -/
def smoothUpdate [AddCommMonoid V] [Module ℚ V] (last_poses : List V)
    (out_seq : List V) : List V :=
  out_seq.mapIdx fun j next =>
    if h : j < last_poses.length then
      let n : ℚ := last_poses.length
      (((n - (j : ℚ)) / (n + 1)) • last_poses.get ⟨j, h⟩) +
        ((((j : ℚ) + 1) / (n + 1)) • next)
    else next

/-- Lines 78-88: the smoothing block.  When `len(out_list) > 0`:
`last_poses = out_list[-1][-n_pre_poses:]`, then
`out_list[-1] = out_list[-1][:-n_pre_poses]` (delete the last part), then the
cross-fade of `smoothUpdate` rewrites the head of `out_seq`.  Returns the
updated `out_list` together with the (possibly rewritten) `out_seq`. -/
def smoothTransition [AddCommMonoid V] [Module ℚ V] (n_pre_poses : ℕ)
    (out_list : List (List V)) (out_seq : List V) : List (List V) × List V :=
  if out_list.isEmpty then (out_list, out_seq)
  else
    let prev := out_list.getLastD []
    let last_poses := pyTail n_pre_poses prev
    let trimmed := out_list.dropLast ++ [pyDropTail n_pre_poses prev]
    (trimmed, smoothUpdate last_poses out_seq)

/-- Errors a `generate_gestures` run can terminate with: a predictor
exception propagated out of the loop (the code has no try/except), a torch
assignment with mismatched shape (lines 30 and 69), or `np.vstack([])`
failing on an empty output list (line 94). -/
inductive GGErr (ε : Type) where
  | predictor (e : ε)
  | shapeMismatch
  | emptyAggregate
deriving DecidableEq

/-- Loop state of `generate_gestures`: `out_list` (the accumulated window
outputs), the `pre_seq` buffer contents, `out_poses` (the previous raw
predictor output, `none` before the first iteration), plus two observers:
`seeds` records the pre-sequence passed to each predictor invocation and
`calls` counts predictor invocations. -/
structure GGState (V : Type) where
  out_list : List (List V)
  pre_seq : List V
  prev_raw : Option (List V)
  seeds : List (List V)
  calls : ℕ
deriving DecidableEq

/-- Lines 51-65: word indices fed to the predictor at iteration `i`:
`start_time = i * stride_time`, `end_time = start_time + unit_time`,
`word_seq = get_words_in_time_range(words, start_time, end_time)` (that
helper lives outside `src/`, so it is the parameter `getWords` here, already
applied to the word list), then `encodeWords`. -/
def wIdxAt (a : Args) (lm : LangModel) (getWords : ℚ → ℚ → List Word)
    (i : ℕ) : List ℤ :=
  encodeWords lm
    ((getWords ((i : ℚ) * stride_time a) ((i : ℚ) * stride_time a + unit_time a)).map Word.text)

/-- One iteration of the loop at lines 50-88 for index `i`: build the word
indices, refresh `pre_seq` from the tail of the previous raw output when
`i > 0` (line 69; the torch assignment requires the slice to fill the
`n_pre_poses`-frame buffer exactly), invoke the predictor
(`pose_decoder(in_text, words_lengths, pre_seq, None)`, line 74), run the
smoothing block, and append the window output. -/
def ggStep [AddCommMonoid V] [Module ℚ V] (a : Args) (lm : LangModel)
    (getWords : ℚ → ℚ → List Word)
    (pose_decoder : List ℤ → ℕ → List V → Except ε (List V))
    (i : ℕ) (st : GGState V) : Except (GGErr ε) (GGState V) :=
  let word_indices := wIdxAt a lm getWords i
  let pre_step : Except (GGErr ε) (List V) :=
    if 0 < i then
      let src := pyTail a.n_pre_poses ((st.prev_raw).getD [])
      if src.length = a.n_pre_poses then .ok src else .error .shapeMismatch
    else .ok st.pre_seq
  match pre_step with
  | .error e => .error e
  | .ok pre_seq =>
    match pose_decoder word_indices word_indices.length pre_seq with
    | .error e => .error (.predictor e)
    | .ok out_poses =>
      let p := smoothTransition a.n_pre_poses st.out_list out_poses
      .ok { out_list := p.1 ++ [p.2], pre_seq := pre_seq,
            prev_raw := some out_poses, seeds := st.seeds ++ [pre_seq],
            calls := st.calls + 1 }

/-- The loop `for i in range(0, count)` at line 50, with short-circuit on
the first error (a Python exception aborts the loop). -/
def ggRun [AddCommMonoid V] [Module ℚ V] (a : Args) (lm : LangModel)
    (getWords : ℚ → ℚ → List Word)
    (pose_decoder : List ℤ → ℕ → List V → Except ε (List V))
    (st : GGState V) : ℕ → Except (GGErr ε) (GGState V)
  | 0 => .ok st
  | n + 1 =>
    match ggRun a lm getWords pose_decoder st n with
    | .error e => .error e
    | .ok s => ggStep a lm getWords pose_decoder n s

/-- Lines 28-34: the initial `pre_seq` buffer of shape
`(1, n_pre_poses, pose_dim)`.  With `seed_seq` present, it is filled from
`seed_seq[0:n_pre_poses]` (the torch assignment needs `seed_seq` to supply
all `n_pre_poses` frames); otherwise the mean pose is repeated
`n_pre_poses` times. -/
def initPreSeq (a : Args) (mean : V) (seed_seq : Option (List V)) :
    Except (GGErr ε) (List V) :=
  match seed_seq with
  | some s =>
    if a.n_pre_poses ≤ s.length then .ok (s.take a.n_pre_poses)
    else .error .shapeMismatch
  | none => .ok (List.replicate a.n_pre_poses mean)

/-- Loop state before the first iteration: empty `out_list`, the initial
`pre_seq`, no previous raw output, no calls yet. -/
def initState (pre0 : List V) : GGState V := ⟨[], pre0, none, [], 0⟩

/-- Line 25: `clip_length = words[-1][2]`, the end time of the last word of
the transcript. -/
def clipLen (words : List Word) : ℚ := (words.getLastD ⟨"", 0, 0⟩).end_time

/-- Lines 23-96: `generate_gestures`.  `clip_length = words[-1][2]`, the
initial pre-sequence is built from `seed_seq` or the mean pose, the loop
runs `min(num_subdivision, 59)` times, and the results are aggregated with
`np.vstack(out_list)` (which fails when `out_list` is empty).  Returns the
final loop state (the final pose matrix is `ggFinal` of it). -/
def generate_gestures [AddCommMonoid V] [Module ℚ V] (a : Args) (mean : V)
    (lm : LangModel) (getWords : ℚ → ℚ → List Word)
    (pose_decoder : List ℤ → ℕ → List V → Except ε (List V))
    (words : List Word) (seed_seq : Option (List V)) :
    Except (GGErr ε) (GGState V) :=
  let clip_length := clipLen words
  match initPreSeq a mean seed_seq with
  | .error e => .error e
  | .ok pre0 =>
    let count := (num_subdivision_capped a clip_length).toNat
    match ggRun a lm getWords pose_decoder (initState pre0) count with
    | .error e => .error e
    | .ok st => if st.out_list.isEmpty then .error .emptyAggregate else .ok st

/-- Line 94: `out_poses = np.vstack(out_list)` — concatenation of the
window outputs along the frame axis. -/
def ggFinal (st : GGState V) : List V := st.out_list.flatten

/-- Lines 154-157 of `main`: `std = np.clip(std, a_min=0.01, a_max=None)`
followed by `out_poses = np.multiply(out_poses, std) + mean`, elementwise
per channel with frame-wise broadcasting. -/
def unnormalize (out_poses : List (List ℚ)) (mean std : List ℚ) :
    List (List ℚ) :=
  let std_f := std.map fun s => max s (1 / 100)
  out_poses.map fun frame =>
    List.zipWith (fun x y => x + y) (List.zipWith (fun x y => x * y) frame std_f) mean

deriving instance DecidableEq for Except

theorem pyTail_eq_drop {α : Type _} (k : ℕ) (hk : k ≠ 0) (xs : List α) :
    pyTail k xs = xs.drop (xs.length - k) := by
  simp [pyTail, hk]

theorem pyTail_length {α : Type _} (k : ℕ) (hk : k ≠ 0) (xs : List α)
    (h : k ≤ xs.length) : (pyTail k xs).length = k := by
  simp [pyTail, hk]
  omega

theorem pyDropTail_length {α : Type _} (k : ℕ) (hk : k ≠ 0) (xs : List α) :
    (pyDropTail k xs).length = xs.length - k := by
  simp [pyDropTail, hk]

theorem smoothUpdate_length [AddCommMonoid V] [Module ℚ V]
    (last_poses out_seq : List V) :
    (smoothUpdate last_poses out_seq).length = out_seq.length := by
  simp [smoothUpdate]

/-- Seed context fed to predictor invocation `i`, expressed from the raw
(pre-blend) window outputs `raws`: the initial pre-sequence for `i = 0`,
and the slice `raws(i-1)[-n_pre_poses:]` for `i > 0`. -/
def seedAt (a : Args) (raws : ℕ → List V) (pre0 : List V) : ℕ → List V
  | 0 => pre0
  | i + 1 => pyTail a.n_pre_poses (raws i)

theorem smoothTransition_nil [AddCommMonoid V] [Module ℚ V] (n_pre : ℕ)
    (out_seq : List V) :
    smoothTransition n_pre ([] : List (List V)) out_seq = ([], out_seq) := by
  simp [smoothTransition]

theorem smoothTransition_concat [AddCommMonoid V] [Module ℚ V] (n_pre : ℕ)
    (front : List (List V)) (lastw out_seq : List V) :
    smoothTransition n_pre (front ++ [lastw]) out_seq =
      (front ++ [pyDropTail n_pre lastw], smoothUpdate (pyTail n_pre lastw) out_seq) := by
  simp [smoothTransition, List.getLastD_concat, List.dropLast_concat]

theorem ggStep_zero_ok [AddCommMonoid V] [Module ℚ V] {a : Args} {lm : LangModel}
    {gw : ℚ → ℚ → List Word} {pd : List ℤ → ℕ → List V → Except ε (List V)}
    {st : GGState V} {raw : List V}
    (hpd : pd (wIdxAt a lm gw 0) (wIdxAt a lm gw 0).length st.pre_seq = .ok raw) :
    ggStep a lm gw pd 0 st = .ok
      { out_list := (smoothTransition a.n_pre_poses st.out_list raw).1 ++
          [(smoothTransition a.n_pre_poses st.out_list raw).2],
        pre_seq := st.pre_seq, prev_raw := some raw,
        seeds := st.seeds ++ [st.pre_seq], calls := st.calls + 1 } := by
  simp [ggStep, hpd]

theorem ggStep_succ_ok [AddCommMonoid V] [Module ℚ V] {a : Args} {lm : LangModel}
    {gw : ℚ → ℚ → List Word} {pd : List ℤ → ℕ → List V → Except ε (List V)}
    {k : ℕ} {st : GGState V} {prev raw : List V}
    (hprev : st.prev_raw = some prev)
    (hlen : (pyTail a.n_pre_poses prev).length = a.n_pre_poses)
    (hpd : pd (wIdxAt a lm gw (k + 1)) (wIdxAt a lm gw (k + 1)).length
      (pyTail a.n_pre_poses prev) = .ok raw) :
    ggStep a lm gw pd (k + 1) st = .ok
      { out_list := (smoothTransition a.n_pre_poses st.out_list raw).1 ++
          [(smoothTransition a.n_pre_poses st.out_list raw).2],
        pre_seq := pyTail a.n_pre_poses prev, prev_raw := some raw,
        seeds := st.seeds ++ [pyTail a.n_pre_poses prev], calls := st.calls + 1 } := by
  simp [ggStep, hprev, hlen, hpd]

/-- Closed-form description of a successful run of the scheduling loop:
when `1 ≤ n_pre_poses ≤ n_poses` and, for every window `i < count`, the
predictor accepts the seed `seedAt a raws pre0 i` and returns the raw
output `raws i` of length `n_poses`, the loop performs exactly `count`
predictor invocations, records exactly those seeds, keeps the previous raw
output, and builds an output list whose segment lengths are
`n_poses - n_pre_poses` for every window but the last and `n_poses` for the
last. -/
theorem ggRun_closedForm [AddCommMonoid V] [Module ℚ V] (a : Args)
    (lm : LangModel) (gw : ℚ → ℚ → List Word)
    (pd : List ℤ → ℕ → List V → Except ε (List V))
    (pre0 : List V) (raws : ℕ → List V)
    (h1 : 1 ≤ a.n_pre_poses) (h2 : a.n_pre_poses ≤ a.n_poses) :
    ∀ count : ℕ,
      (∀ i, i < count → (raws i).length = a.n_poses) →
      (∀ i, i < count →
        pd (wIdxAt a lm gw i) (wIdxAt a lm gw i).length (seedAt a raws pre0 i) =
          .ok (raws i)) →
      ∃ st : GGState V,
        ggRun a lm gw pd (initState pre0) count = .ok st ∧
        st.calls = count ∧
        st.seeds = (List.range count).map (seedAt a raws pre0) ∧
        st.pre_seq = seedAt a raws pre0 (count - 1) ∧
        ((count = 0 ∧ st.out_list = [] ∧ st.prev_raw = none) ∨
          (∃ k front lastw, count = k + 1 ∧ st.out_list = front ++ [lastw] ∧
            front.map List.length =
              List.replicate k (a.n_poses - a.n_pre_poses) ∧
            lastw.length = a.n_poses ∧ st.prev_raw = some (raws k))) := by
  intro count
  induction count with
  | zero =>
    intro _ _
    exact ⟨initState pre0, rfl, rfl, by simp [initState], rfl, Or.inl ⟨rfl, rfl, rfl⟩⟩
  | succ n ih =>
    intro hraw hpred
    obtain ⟨st, hrun, hcalls, hseeds, hpre, hcase⟩ :=
      ih (fun i hi => hraw i (Nat.lt_succ_of_lt hi))
        (fun i hi => hpred i (Nat.lt_succ_of_lt hi))
    have hnn : n < n + 1 := Nat.lt_succ_self n
    rcases hcase with ⟨hn0, hout, hprev⟩ | ⟨k, front, lastw, hk, hout, hfront, hlast, hprev⟩
    · -- n = 0 : first iteration
      subst hn0
      have hpd0 : pd (wIdxAt a lm gw 0) (wIdxAt a lm gw 0).length st.pre_seq =
          .ok (raws 0) := by
        rw [hpre]
        exact hpred 0 hnn
      have hstep := ggStep_zero_ok hpd0
      refine ⟨{ out_list := (smoothTransition a.n_pre_poses st.out_list (raws 0)).1 ++
                  [(smoothTransition a.n_pre_poses st.out_list (raws 0)).2],
                pre_seq := st.pre_seq, prev_raw := some (raws 0),
                seeds := st.seeds ++ [st.pre_seq], calls := st.calls + 1 },
        ?_, ?_, ?_, ?_, ?_⟩
      · show ggRun a lm gw pd (initState pre0) (0 + 1) = _
        rw [ggRun, hrun]
        exact hstep
      · simpa using hcalls
      · simp [hseeds, hpre, List.range_succ]
      · simpa using hpre
      · refine Or.inr ⟨0, [], (smoothTransition a.n_pre_poses st.out_list (raws 0)).2, rfl, ?_, by simp, ?_, rfl⟩
        · simp [hout, smoothTransition_nil]
        · simp [hout, smoothTransition_nil]
          exact hraw 0 hnn
    · -- n = k + 1 : subsequent iteration
      subst hk
      have hlen : (pyTail a.n_pre_poses (raws k)).length = a.n_pre_poses :=
        pyTail_length _ (by omega) _ (by rw [hraw k (by omega)]; exact h2)
      have hseedkk : seedAt a raws pre0 (k + 1) = pyTail a.n_pre_poses (raws k) := rfl
      have hpdk : pd (wIdxAt a lm gw (k + 1)) (wIdxAt a lm gw (k + 1)).length
          (pyTail a.n_pre_poses (raws k)) = .ok (raws (k + 1)) := by
        rw [← hseedkk]
        exact hpred (k + 1) hnn
      have hstep := ggStep_succ_ok hprev hlen hpdk
      refine ⟨{ out_list := (smoothTransition a.n_pre_poses st.out_list (raws (k + 1))).1 ++
                  [(smoothTransition a.n_pre_poses st.out_list (raws (k + 1))).2],
                pre_seq := pyTail a.n_pre_poses (raws k), prev_raw := some (raws (k + 1)),
                seeds := st.seeds ++ [pyTail a.n_pre_poses (raws k)],
                calls := st.calls + 1 },
        ?_, ?_, ?_, ?_, ?_⟩
      · show ggRun a lm gw pd (initState pre0) (k + 1 + 1) = _
        rw [ggRun, hrun]
        exact hstep
      · simpa using hcalls
      · simp [hseeds, List.range_succ, hseedkk]
      · simp [hseedkk]
      · refine Or.inr ⟨k + 1, front ++ [pyDropTail a.n_pre_poses lastw],
          (smoothTransition a.n_pre_poses st.out_list (raws (k + 1))).2, rfl, ?_, ?_, ?_, rfl⟩
        · simp [hout, smoothTransition_concat]
        · simp [hfront, List.replicate_succ']
          rw [pyDropTail_length _ (by omega), hlast]
        · rw [hout, smoothTransition_concat]
          simp [smoothUpdate_length]
          exact hraw (k + 1) hnn

/-- Closed-form description of a successful `generate_gestures` run, lifted
from `ggRun_closedForm`: with a valid configuration and a predictor that
returns `raws i` (of `n_poses` frames) on the seed of each window `i`, the
run succeeds, performs exactly `min(num_subdivision, 59)` predictor calls
with the seeds `seedAt`, and the aggregated pose sequence has
`n_poses + (count - 1) * (n_poses - n_pre_poses)` frames. -/
theorem generate_gestures_closedForm [AddCommMonoid V] [Module ℚ V]
    (a : Args) (lm : LangModel) (gw : ℚ → ℚ → List Word)
    (pd : List ℤ → ℕ → List V → Except ε (List V)) (mean : V)
    (words : List Word) (seed_seq : Option (List V)) (pre0 : List V)
    (raws : ℕ → List V)
    (hinit : initPreSeq (ε := ε) a mean seed_seq = Except.ok pre0)
    (h1 : 1 ≤ a.n_pre_poses) (h2 : a.n_pre_poses ≤ a.n_poses)
    (hN : 1 ≤ (num_subdivision_capped a (clipLen words)).toNat)
    (hraw : ∀ i, i < (num_subdivision_capped a (clipLen words)).toNat →
      (raws i).length = a.n_poses)
    (hpred : ∀ i, i < (num_subdivision_capped a (clipLen words)).toNat →
      pd (wIdxAt a lm gw i) (wIdxAt a lm gw i).length (seedAt a raws pre0 i) =
        Except.ok (raws i)) :
    ∃ st : GGState V,
      generate_gestures a mean lm gw pd words seed_seq = Except.ok st ∧
      st.calls = (num_subdivision_capped a (clipLen words)).toNat ∧
      st.seeds = (List.range (num_subdivision_capped a (clipLen words)).toNat).map
        (seedAt a raws pre0) ∧
      (ggFinal st).length =
        a.n_poses + ((num_subdivision_capped a (clipLen words)).toNat - 1) *
          (a.n_poses - a.n_pre_poses) := by
  obtain ⟨st, hrun, hcalls, hseeds, hpre, hcase⟩ :=
    ggRun_closedForm a lm gw pd pre0 raws h1 h2
      ((num_subdivision_capped a (clipLen words)).toNat) hraw hpred
  rcases hcase with ⟨hn0, _, _⟩ | ⟨k, front, lastw, hk, hout, hfront, hlast, _⟩
  · omega
  · refine ⟨st, ?_, hcalls, hseeds, ?_⟩
    · unfold generate_gestures
      rw [hinit]
      dsimp only
      rw [hrun]
      simp [hout]
    · rw [ggFinal, hout, hk]
      simp [List.length_flatten, hfront, List.sum_const_nat, hlast]
      ring

theorem replicate_set_last (k : ℕ) (x : ℤ) :
    (List.replicate (k + 1) (0 : ℤ)).set k x = List.replicate k (0 : ℤ) ++ [x] := by
  induction k with
  | zero => rfl
  | succ n ihn =>
    rw [List.replicate_succ, List.set_cons_succ, ihn, List.replicate_succ]
    rfl

theorem foldl_set_drop_head (idx : String → ℤ) :
    ∀ (ws : List String) (n : ℕ) (y : ℤ) (rest : List ℤ),
      (List.enumFrom (n + 1) ws).foldl (fun a p => a.set p.1 (idx p.2)) (y :: rest) =
        y :: (List.enumFrom n ws).foldl (fun a p => a.set p.1 (idx p.2)) rest := by
  intro ws
  induction ws with
  | nil => intro n y rest; rfl
  | cons w ws ih =>
    intro n y rest
    simp only [List.enumFrom, List.foldl_cons, List.set_cons_succ]
    exact ih (n + 1) y (rest.set n (idx w))

theorem foldl_set_shift_one (idx : String → ℤ) :
    ∀ (ws : List String) (n : ℕ) (y : ℤ) (rest : List ℤ),
      (List.enumFrom n ws).foldl (fun a p => a.set (p.1 + 1) (idx p.2)) (y :: rest) =
        y :: (List.enumFrom n ws).foldl (fun a p => a.set p.1 (idx p.2)) rest := by
  intro ws
  induction ws with
  | nil => intro n y rest; rfl
  | cons w ws ih =>
    intro n y rest
    simp only [List.enumFrom, List.foldl_cons, List.set_cons_succ]
    exact ih (n + 1) y (rest.set n (idx w))

theorem foldl_set_fill (idx : String → ℤ) :
    ∀ (ws : List String) (rest : List ℤ), ws.length ≤ rest.length →
      (List.enumFrom 0 ws).foldl (fun a p => a.set p.1 (idx p.2)) rest =
        ws.map idx ++ rest.drop ws.length := by
  intro ws
  induction ws with
  | nil => intro rest h; simp
  | cons w ws ih =>
    intro rest h
    match rest with
    | [] => simp at h
    | r :: rest2 =>
      simp only [List.enumFrom, List.foldl_cons, List.set_cons_zero]
      rw [foldl_set_drop_head, ih rest2 (by simpa using h)]
      simp

/-- C8: for every (possibly empty) word window of `k` words, the encoded
predictor input is `[SOS, idx(w1), ..., idx(wk), EOS]` of length `k + 2`,
where `idx(w)` is the mapped vocabulary index when `w` is known and the
UNKNOWN sentinel otherwise; `encodeWords` is a pure function of the
(read-only) vocabulary and the word sequence. -/
theorem c8_encode_word_indices (lm : LangModel) (ws : List String) :
    encodeWords lm ws =
      lm.SOS_token :: ws.map lm.get_word_index ++ [lm.EOS_token] ∧
    (encodeWords lm ws).length = ws.length + 2 ∧
    (∀ w i, lm.word2index.lookup w = some i → lm.get_word_index w = i) ∧
    (∀ w, lm.word2index.lookup w = none → lm.get_word_index w = lm.UNK_token) := by
  have harr : ((List.replicate (ws.length + 2) (0 : ℤ)).set 0 lm.SOS_token).set
      (ws.length + 1) lm.EOS_token =
      lm.SOS_token :: (List.replicate ws.length (0 : ℤ) ++ [lm.EOS_token]) := by
    rw [List.replicate_succ, List.set_cons_zero, List.set_cons_succ, replicate_set_last]
  have henc : encodeWords lm ws =
      lm.SOS_token :: ws.map lm.get_word_index ++ [lm.EOS_token] := by
    unfold encodeWords
    dsimp only
    rw [harr, show ws.enum = List.enumFrom 0 ws from rfl, foldl_set_shift_one,
      foldl_set_fill lm.get_word_index ws
        (List.replicate ws.length 0 ++ [lm.EOS_token]) (by simp)]
    simp
  refine ⟨henc, by rw [henc]; simp, ?_, ?_⟩
  · intro w i h
    simp [LangModel.get_word_index, h]
  · intro w h
    simp [LangModel.get_word_index, h]

/-- C9: unnormalization maps every pose sequence elementwise to
`pose_seq * std_f + mean`, where `std_f` floors every channel of `std` at
`0.01 = 1/100` (channels with `std ≥ 0.01` are unchanged, and no upper
bound is applied); it preserves the frame count and is a pure total
function of its arguments. -/
theorem c9_unnormalize_elementwise (poses : List (List ℚ)) (mean std : List ℚ)
    (i c : ℕ) (hi : i < poses.length)
    (hc : c < (poses.getD i []).length) (hs : c < std.length)
    (hm : c < mean.length) :
    (unnormalize poses mean std).length = poses.length ∧
    ((unnormalize poses mean std).getD i []).getD c 0 =
      (poses.getD i []).getD c 0 * max (std.getD c 0) (1 / 100) +
        mean.getD c 0 ∧
    (1 / 100 ≤ std.getD c 0 → max (std.getD c 0) (1 / 100) = std.getD c 0) := by
  have hlen : (unnormalize poses mean std).length = poses.length := by
    simp [unnormalize]
  refine ⟨hlen, ?_, fun h => max_eq_left h⟩
  have hi2 : i < (unnormalize poses mean std).length := by rw [hlen]; exact hi
  have hrow : (unnormalize poses mean std).getD i [] =
      List.zipWith (fun x y => x + y)
        (List.zipWith (fun x y => x * y) (poses.getD i [])
          (std.map fun s => max s (1 / 100))) mean := by
    rw [List.getD_eq_get _ _ hi2, List.getD_eq_get _ _ hi]
    simp [unnormalize, List.get_map]
  rw [hrow]
  have hsf : c < (std.map fun s => max s (1 / 100)).length := by
    simpa using hs
  have hz1 : c < (List.zipWith (fun x y => x * y) (poses.getD i [])
      (std.map fun s => max s (1 / 100))).length := by
    rw [List.length_zipWith]
    omega
  have hz2 : c < (List.zipWith (fun x y => x + y)
      (List.zipWith (fun x y => x * y) (poses.getD i [])
        (std.map fun s => max s (1 / 100))) mean).length := by
    rw [List.length_zipWith, List.length_zipWith]
    omega
  rw [List.getD_eq_get _ _ hz2, List.get_zipWith, List.get_zipWith, List.get_map,
    List.getD_eq_get _ _ hc, List.getD_eq_get _ _ hs, List.getD_eq_get _ _ hm]

/-- Concrete instance of `c9_unnormalize_elementwise`: one frame `[1, 2]`
with `mean = [100, 200]` and `std = [1/2, 1/1000]` (the second channel is
floored to `1/100`). -/
theorem c9_unnormalize_elementwise_witness :
    ((unnormalize [[1, 2]] [100, 200] [1 / 2, 1 / 1000]).length = 1 ∧
      ((unnormalize [[1, 2]] [100, 200] [1 / 2, 1 / 1000]).getD 0 []).getD 1 0 =
        2 * max ((1 / 1000 : ℚ)) (1 / 100) + 200 ∧
      (1 / 100 ≤ (1 / 1000 : ℚ) → max ((1 / 1000 : ℚ)) (1 / 100) = 1 / 1000)) ∧
    unnormalize [[1, 2]] [100, 200] [1 / 2, 1 / 1000] = [[201 / 2, 10001 / 50]] := by
  constructor
  · have h := c9_unnormalize_elementwise [[1, 2]] [100, 200] [1 / 2, 1 / 1000]
      0 1 (by decide) (by decide) (by decide) (by decide)
    simpa using h
  · norm_num [unnormalize]

theorem smoothUpdate_get [AddCommMonoid V] [Module ℚ V] (lp out : List V)
    (j : ℕ) (hjl : j < lp.length) (hjo : j < out.length) :
    (smoothUpdate lp out).get ⟨j, by rw [smoothUpdate_length]; exact hjo⟩ =
      (((lp.length : ℚ) - j) / (lp.length + 1)) • lp.get ⟨j, hjl⟩ +
        (((j : ℚ) + 1) / (lp.length + 1)) • out.get ⟨j, hjo⟩ := by
  unfold smoothUpdate
  rw [List.get_mapIdx _ _ j hjo]
  simp [hjl]

/-- C2: for every window `i > 0` (the accumulated output list is non-empty,
here `front ++ [prev]`) with `n = n_pre_poses ≥ 1`, the blend step rewrites
overlap frame `j` (for `j < n`) of the new raw output to
`previous_tail[j] * (n - j) / (n + 1) + current_raw[j] * (j + 1) / (n + 1)`,
where `previous_tail` is the last `n` frames of the previous window output
`prev`; in particular at `j = 0` the weights are `n/(n+1)` and `1/(n+1)`,
and at `j = n - 1` they are `1/(n+1)` and `n/(n+1)`. -/
theorem c2_overlap_blend_weights [AddCommMonoid V] [Module ℚ V] (n : ℕ)
    (front : List (List V)) (prev current_raw : List V)
    (h1 : 1 ≤ n) (hp : n ≤ prev.length) (hc : n ≤ current_raw.length) :
    (∀ j, j < n →
      ((smoothTransition n (front ++ [prev]) current_raw).2).getD j 0 =
        (((n : ℚ) - j) / (n + 1)) • (prev.drop (prev.length - n)).getD j 0 +
          (((j : ℚ) + 1) / (n + 1)) • current_raw.getD j 0) ∧
    ((smoothTransition n (front ++ [prev]) current_raw).2).getD 0 0 =
      ((n : ℚ) / (n + 1)) • (prev.drop (prev.length - n)).getD 0 0 +
        ((1 : ℚ) / (n + 1)) • current_raw.getD 0 0 ∧
    ((smoothTransition n (front ++ [prev]) current_raw).2).getD (n - 1) 0 =
      ((1 : ℚ) / (n + 1)) • (prev.drop (prev.length - n)).getD (n - 1) 0 +
        ((n : ℚ) / (n + 1)) • current_raw.getD (n - 1) 0 := by
  have hn0 : n ≠ 0 := by omega
  have htail : pyTail n prev = prev.drop (prev.length - n) :=
    pyTail_eq_drop n hn0 prev
  have htlen : (pyTail n prev).length = n := pyTail_length n hn0 prev hp
  have hgen : ∀ j, j < n →
      ((smoothTransition n (front ++ [prev]) current_raw).2).getD j 0 =
        (((n : ℚ) - j) / (n + 1)) • (prev.drop (prev.length - n)).getD j 0 +
          (((j : ℚ) + 1) / (n + 1)) • current_raw.getD j 0 := by
    intro j hj
    have hjc : j < current_raw.length := lt_of_lt_of_le hj hc
    have hjt : j < (pyTail n prev).length := by rw [htlen]; exact hj
    have hjs : j < (smoothUpdate (pyTail n prev) current_raw).length := by
      rw [smoothUpdate_length]; exact hjc
    rw [smoothTransition_concat]
    rw [List.getD_eq_get _ _ hjs, smoothUpdate_get _ _ j hjt hjc]
    have hcast : (((pyTail n prev).length : ℕ) : ℚ) = (n : ℚ) := by rw [htlen]
    rw [hcast, ← htail, List.getD_eq_get _ _ hjt, List.getD_eq_get _ _ hjc]
  refine ⟨hgen, ?_, ?_⟩
  · have h := hgen 0 (by omega)
    simpa using h
  · have h := hgen (n - 1) (by omega)
    rw [h]
    have hc1 : ((n - 1 : ℕ) : ℚ) = (n : ℚ) - 1 := by
      push_cast [Nat.cast_sub h1]
      ring
    rw [hc1]
    norm_num

theorem generate_gestures_count_eq [AddCommMonoid V] [Module ℚ V] (a : Args)
    (lm : LangModel) (gw : ℚ → ℚ → List Word)
    (pd : List ℤ → ℕ → List V → Except ε (List V)) (mean : V)
    (words : List Word) (seed_seq : Option (List V)) (pre0 : List V) (N : ℕ)
    (hinit : initPreSeq (ε := ε) a mean seed_seq = Except.ok pre0)
    (hcnt : (num_subdivision_capped a (clipLen words)).toNat = N) :
    generate_gestures a mean lm gw pd words seed_seq =
      match ggRun a lm gw pd (initState pre0) N with
      | .error e => .error e
      | .ok st =>
        if st.out_list.isEmpty then .error .emptyAggregate else .ok st := by
  unfold generate_gestures
  rw [hinit]
  dsimp only
  rw [hcnt]

theorem ggStep_zero_err [AddCommMonoid V] [Module ℚ V] {a : Args}
    {lm : LangModel} {gw : ℚ → ℚ → List Word}
    {pd : List ℤ → ℕ → List V → Except ε (List V)} {st : GGState V} {e : ε}
    (hpd : pd (wIdxAt a lm gw 0) (wIdxAt a lm gw 0).length st.pre_seq =
      .error e) :
    ggStep a lm gw pd 0 st = .error (.predictor e) := by
  simp [ggStep, hpd]

theorem ggStep_succ_err [AddCommMonoid V] [Module ℚ V] {a : Args}
    {lm : LangModel} {gw : ℚ → ℚ → List Word}
    {pd : List ℤ → ℕ → List V → Except ε (List V)} {k : ℕ} {st : GGState V}
    {prev : List V} {e : ε}
    (hprev : st.prev_raw = some prev)
    (hlen : (pyTail a.n_pre_poses prev).length = a.n_pre_poses)
    (hpd : pd (wIdxAt a lm gw (k + 1)) (wIdxAt a lm gw (k + 1)).length
      (pyTail a.n_pre_poses prev) = .error e) :
    ggStep a lm gw pd (k + 1) st = .error (.predictor e) := by
  simp [ggStep, hprev, hlen, hpd]

theorem ggRun_error_mono [AddCommMonoid V] [Module ℚ V] (a : Args)
    (lm : LangModel) (gw : ℚ → ℚ → List Word)
    (pd : List ℤ → ℕ → List V → Except ε (List V)) (st0 : GGState V)
    (m : ℕ) (e : GGErr ε) :
    ∀ m', m ≤ m' → ggRun a lm gw pd st0 m = .error e →
      ggRun a lm gw pd st0 m' = .error e := by
  intro m'
  induction m' with
  | zero =>
    intro hm he
    have : m = 0 := Nat.le_zero.mp hm
    rwa [this] at he
  | succ n ih =>
    intro hm he
    rcases Nat.lt_or_ge n m with h | h
    · have : m = n + 1 := by omega
      rwa [this] at he
    · rw [ggRun, ih h he]

/-- Raw predictor outputs along a run driven by a total predictor `f`:
window 0 is predicted from `pre0`, window `i + 1` from the
`n_pre_poses`-tail slice of window `i`'s raw output. -/
def rawsOf (a : Args) (lm : LangModel) (gw : ℚ → ℚ → List Word)
    (f : List ℤ → ℕ → List V → List V) (pre0 : List V) : ℕ → List V
  | 0 => f (wIdxAt a lm gw 0) (wIdxAt a lm gw 0).length pre0
  | i + 1 =>
    f (wIdxAt a lm gw (i + 1)) (wIdxAt a lm gw (i + 1)).length
      (pyTail a.n_pre_poses (rawsOf a lm gw f pre0 i))

theorem rawsOf_pred_ok [AddCommMonoid V] [Module ℚ V] (a : Args)
    (lm : LangModel) (gw : ℚ → ℚ → List Word)
    (f : List ℤ → ℕ → List V → List V) (pre0 : List V) (i : ℕ) :
    (fun wi k ps => (Except.ok (f wi k ps) : Except ε (List V)))
        (wIdxAt a lm gw i) (wIdxAt a lm gw i).length
        (seedAt a (rawsOf a lm gw f pre0) pre0 i) =
      Except.ok (rawsOf a lm gw f pre0 i) := by
  cases i <;> rfl

theorem rawsOf_length (a : Args) (lm : LangModel) (gw : ℚ → ℚ → List Word)
    (f : List ℤ → ℕ → List V → List V) (pre0 : List V)
    (hf : ∀ wi k ps, (f wi k ps).length = a.n_poses) (i : ℕ) :
    (rawsOf a lm gw f pre0 i).length = a.n_poses := by
  cases i <;> exact hf _ _ _

/-- C1 (amended): for every transcript, with a valid configuration
(`1 ≤ n_pre_poses < n_poses`, positive framerate) and a predictor that
always returns `n_poses` frames, the scheduler computes
`num_subdivision = ceil((clip_length - unit_time) / stride_time) + 1` with
`stride_time = (n_poses - n_pre_poses) / framerate` when
`clip_length ≥ unit_time`, and `num_subdivision = 1` when
`clip_length < unit_time`; the window loop then invokes the predictor
exactly `min(num_subdivision, 59)` times — the formula value when it does
not exceed the debug cap 59 at line 46, and 59 otherwise. -/
theorem c1_loop_count_capped [AddCommMonoid V] [Module ℚ V] (a : Args)
    (lm : LangModel) (gw : ℚ → ℚ → List Word) (mean : V)
    (f : List ℤ → ℕ → List V → List V) (words : List Word)
    (hfr : 0 < a.motion_resampling_framerate)
    (h1 : 1 ≤ a.n_pre_poses) (h2 : a.n_pre_poses < a.n_poses)
    (hf : ∀ wi k ps, (f wi k ps).length = a.n_poses) :
    (unit_time a ≤ clipLen words →
      num_subdivision a (clipLen words) =
        ⌈(clipLen words - unit_time a) / stride_time a⌉ + 1) ∧
    (clipLen words < unit_time a → num_subdivision a (clipLen words) = 1) ∧
    ∃ st : GGState V,
      generate_gestures a mean lm gw
        (fun wi k ps => (Except.ok (f wi k ps) : Except ε (List V)))
        words none = .ok st ∧
      st.calls = (min (num_subdivision a (clipLen words)) 59).toNat := by
  have hstride : 0 < stride_time a := by
    apply div_pos _ hfr
    have : (a.n_pre_poses : ℚ) < (a.n_poses : ℚ) := by exact_mod_cast h2
    linarith
  have hN1 : 1 ≤ (num_subdivision_capped a (clipLen words)).toNat := by
    rcases lt_or_ge (clipLen words) (unit_time a) with hc | hc
    · rw [num_subdivision_capped, num_subdivision, if_pos hc]
      rfl
    · have hceil : 0 ≤ ⌈(clipLen words - unit_time a) / stride_time a⌉ :=
        Int.ceil_nonneg (div_nonneg (by linarith) hstride.le)
      rw [num_subdivision_capped, num_subdivision, if_neg (not_lt.mpr hc)]
      omega
  obtain ⟨st, hok, hcalls, _, _⟩ :=
    generate_gestures_closedForm a lm gw
      (fun wi k ps => (Except.ok (f wi k ps) : Except ε (List V))) mean words
      none (List.replicate a.n_pre_poses mean)
      (rawsOf a lm gw f (List.replicate a.n_pre_poses mean)) rfl h1
      (le_of_lt h2) hN1
      (fun i _ => rawsOf_length a lm gw f _ hf i)
      (fun i _ => rawsOf_pred_ok a lm gw f _ i)
  refine ⟨?_, ?_, st, hok, ?_⟩
  · intro hc
    rw [num_subdivision, if_neg (not_lt.mpr hc)]
  · intro hc
    rw [num_subdivision, if_pos hc]
  · rw [hcalls, num_subdivision_capped]

/-- Concrete instance of `c1_loop_count_capped`: `n_poses = 2`,
`n_pre_poses = 1`, framerate 1, a single word ending at `t = 4`
(`clip_length = 4 ≥ unit_time = 2`). -/
theorem c1_loop_count_capped_witness :
    (unit_time ⟨2, 1, 1⟩ ≤ clipLen [⟨"a", 0, 4⟩] →
      num_subdivision ⟨2, 1, 1⟩ (clipLen [⟨"a", 0, 4⟩]) =
        ⌈(clipLen [⟨"a", 0, 4⟩] - unit_time ⟨2, 1, 1⟩) / stride_time ⟨2, 1, 1⟩⌉ + 1) ∧
    (clipLen [⟨"a", 0, 4⟩] < unit_time ⟨2, 1, 1⟩ →
      num_subdivision ⟨2, 1, 1⟩ (clipLen [⟨"a", 0, 4⟩]) = 1) ∧
    ∃ st : GGState ℚ,
      generate_gestures ⟨2, 1, 1⟩ (0 : ℚ) ⟨1, 2, 3, []⟩ (fun _ _ => [])
        (fun wi k ps => (Except.ok ((fun _ _ _ => [0, 0]) wi k ps) :
          Except Unit (List ℚ))) [⟨"a", 0, 4⟩] none = .ok st ∧
      st.calls = (min (num_subdivision ⟨2, 1, 1⟩ (clipLen [⟨"a", 0, 4⟩])) 59).toNat :=
  c1_loop_count_capped ⟨2, 1, 1⟩ ⟨1, 2, 3, []⟩ (fun _ _ => []) (0 : ℚ)
    (fun _ _ _ => [0, 0]) [⟨"a", 0, 4⟩] (by norm_num) (by norm_num)
    (by norm_num) (fun _ _ _ => rfl)

/-- C1 is false as stated: with `n_poses = 2`, `n_pre_poses = 1`,
framerate 1 and a transcript whose last word ends at `t = 100`
(`clip_length = 100 ≥ unit_time = 2`), the claimed formula gives
`num_subdivision = ceil((100 - 2) / 1) + 1 = 99`, but line 46 caps the
value and the loop invokes the predictor only `min(99, 59) = 59` times. -/
theorem c1_cap_counterexample :
    num_subdivision ⟨2, 1, 1⟩ (clipLen [⟨"a", 0, 100⟩]) = 99 ∧
    Except.map (fun st : GGState ℚ => st.calls)
      (generate_gestures ⟨2, 1, 1⟩ (0 : ℚ) ⟨1, 2, 3, []⟩ (fun _ _ => [])
        (fun _ _ _ => (Except.ok [0, 0] : Except Unit (List ℚ)))
        [⟨"a", 0, 100⟩] none) = Except.ok 59 ∧
    (59 : ℕ) ≠ 99 := by
  have hnsd : num_subdivision ⟨2, 1, 1⟩ (clipLen [⟨"a", 0, 100⟩]) = 99 := by
    norm_num [num_subdivision, unit_time, stride_time, clipLen]
  have hN : (num_subdivision_capped ⟨2, 1, 1⟩
      (clipLen [⟨"a", 0, 100⟩])).toNat = 59 := by
    rw [num_subdivision_capped, hnsd]
    rfl
  obtain ⟨st, hok, hcalls, _, _⟩ :=
    generate_gestures_closedForm ⟨2, 1, 1⟩ ⟨1, 2, 3, []⟩ (fun _ _ => [])
      (fun _ _ _ => (Except.ok [0, 0] : Except Unit (List ℚ))) (0 : ℚ)
      [⟨"a", 0, 100⟩] none [0] (fun _ => [0, 0]) rfl (by norm_num)
      (by norm_num) (by rw [hN]; norm_num) (fun i _ => rfl) (fun i _ => rfl)
  rw [hok]
  refine ⟨hnsd, ?_, by norm_num⟩
  simp [Except.map, hcalls, hN]

/-- Concrete instance of `c2_overlap_blend_weights`: `n = 2`, previous
window `[10, 20]`, current raw output `[1, 2, 3]`; blended frame 0 equals
`10 * 2/3 + 1 * 1/3 = 7`. -/
theorem c2_overlap_blend_weights_witness :
    ((smoothTransition 2 (([] : List (List ℚ)) ++ [[10, 20]]) [1, 2, 3]).2).getD 0 0 =
      ((2 : ℚ) / (2 + 1)) •
          (([10, 20] : List ℚ).drop (([10, 20] : List ℚ).length - 2)).getD 0 0 +
        ((1 : ℚ) / (2 + 1)) • ([1, 2, 3] : List ℚ).getD 0 0 ∧
    ((smoothTransition 2 (([] : List (List ℚ)) ++ [[10, 20]]) [1, 2, 3]).2).getD 0 0 = 7 := by
  have h := c2_overlap_blend_weights 2 ([] : List (List ℚ)) [10, 20] [1, 2, 3]
    (by norm_num) (by norm_num) (by norm_num)
  refine ⟨h.2.1, ?_⟩
  rw [h.2.1]
  norm_num [smul_eq_mul]

/-- C3 (amended): for every run with `1 ≤ n_pre_poses ≤ n_poses` in which
each predictor call returns `n_poses` frames and the loop performs at least
one iteration, the final concatenated pose sequence has exactly
`n_poses + (count - 1) * (n_poses - n_pre_poses)` frames, where `count` is
the number of loop iterations: each overlap region appears exactly once,
with no frames duplicated or dropped across window seams. -/
theorem c3_concat_length [AddCommMonoid V] [Module ℚ V] (a : Args)
    (lm : LangModel) (gw : ℚ → ℚ → List Word) (mean : V)
    (f : List ℤ → ℕ → List V → List V) (words : List Word)
    (h1 : 1 ≤ a.n_pre_poses) (h2 : a.n_pre_poses ≤ a.n_poses)
    (hf : ∀ wi k ps, (f wi k ps).length = a.n_poses)
    (hN : 1 ≤ (num_subdivision_capped a (clipLen words)).toNat) :
    ∃ st : GGState V,
      generate_gestures a mean lm gw
        (fun wi k ps => (Except.ok (f wi k ps) : Except ε (List V)))
        words none = .ok st ∧
      st.calls = (num_subdivision_capped a (clipLen words)).toNat ∧
      (ggFinal st).length =
        a.n_poses + ((num_subdivision_capped a (clipLen words)).toNat - 1) *
          (a.n_poses - a.n_pre_poses) := by
  obtain ⟨st, hok, hcalls, _, hlen⟩ :=
    generate_gestures_closedForm a lm gw
      (fun wi k ps => (Except.ok (f wi k ps) : Except ε (List V))) mean words
      none (List.replicate a.n_pre_poses mean)
      (rawsOf a lm gw f (List.replicate a.n_pre_poses mean)) rfl h1 h2 hN
      (fun i _ => rawsOf_length a lm gw f _ hf i)
      (fun i _ => rawsOf_pred_ok a lm gw f _ i)
  exact ⟨st, hok, hcalls, hlen⟩

/-- Concrete instance of `c3_concat_length`: `n_poses = 2`,
`n_pre_poses = 1`, framerate 1, clip length 4 — three windows, final
length `2 + 2 * 1 = 4`. -/
theorem c3_concat_length_witness :
    ∃ st : GGState ℚ,
      generate_gestures ⟨2, 1, 1⟩ (0 : ℚ) ⟨1, 2, 3, []⟩ (fun _ _ => [])
        (fun wi k ps => (Except.ok ((fun _ _ _ => [0, 0]) wi k ps) :
          Except Unit (List ℚ))) [⟨"a", 0, 4⟩] none = .ok st ∧
      st.calls = (num_subdivision_capped ⟨2, 1, 1⟩ (clipLen [⟨"a", 0, 4⟩])).toNat ∧
      (ggFinal st).length =
        2 + ((num_subdivision_capped ⟨2, 1, 1⟩ (clipLen [⟨"a", 0, 4⟩])).toNat - 1) * (2 - 1) :=
  c3_concat_length ⟨2, 1, 1⟩ ⟨1, 2, 3, []⟩ (fun _ _ => []) (0 : ℚ)
    (fun _ _ _ => [0, 0]) [⟨"a", 0, 4⟩] (by norm_num) (by norm_num)
    (fun _ _ _ => rfl)
    (by
      have h : num_subdivision ⟨2, 1, 1⟩ (clipLen [⟨"a", 0, 4⟩]) = 3 := by
        norm_num [num_subdivision, unit_time, stride_time, clipLen]
      rw [num_subdivision_capped, h]
      norm_num)

/-- C3 is false as stated when `n_pre_poses = 0` (a case its statement
allows): with `n_poses = 2`, `n_pre_poses = 0`, framerate 1 and clip length
3, the loop should run 2 iterations and the formula predicts `2 + 1 * 2 = 4`
frames, but the run aborts with a shape error at window 1 (the `-0` slice
`out_poses[-0:]` yields all `n_poses` frames, which cannot fill the
0-frame seed buffer), so no final sequence is produced at all. -/
theorem c3_counterexample :
    (num_subdivision_capped ⟨2, 0, 1⟩ (clipLen [⟨"a", 0, 3⟩])).toNat = 2 ∧
    generate_gestures ⟨2, 0, 1⟩ (0 : ℚ) ⟨1, 2, 3, []⟩ (fun _ _ => [])
      (fun _ _ _ => (Except.ok [1, 1] : Except Unit (List ℚ)))
      [⟨"a", 0, 3⟩] none = .error .shapeMismatch := by
  have hN : (num_subdivision_capped ⟨2, 0, 1⟩ (clipLen [⟨"a", 0, 3⟩])).toNat = 2 := by
    have h : num_subdivision ⟨2, 0, 1⟩ (clipLen [⟨"a", 0, 3⟩]) = 2 := by
      rw [num_subdivision, if_neg (by norm_num [clipLen, unit_time])]
      have hc : ⌈(clipLen [⟨"a", 0, 3⟩] - unit_time ⟨2, 0, 1⟩) /
          stride_time ⟨2, 0, 1⟩⌉ = 1 := by
        norm_num [clipLen, unit_time, stride_time, Int.ceil_eq_iff]
      rw [hc]
      rfl
    rw [num_subdivision_capped, h]
    rfl
  refine ⟨hN, ?_⟩
  rw [generate_gestures_count_eq ⟨2, 0, 1⟩ ⟨1, 2, 3, []⟩ (fun _ _ => [])
    (fun _ _ _ => (Except.ok [1, 1] : Except Unit (List ℚ))) (0 : ℚ)
    [⟨"a", 0, 3⟩] none [] 2 rfl hN]
  decide

/-- C4 fails on the code (code bug): with `n_pre_poses = 0` the blend step
is not a no-op and the run does not produce the plain concatenation.  In a
two-window run the window-1 seed assignment already fails (the `-0` slice
`out_poses[-0:]` yields all `n_poses` frames, which cannot fill the 0-frame
buffer), so the run aborts; and the blend block itself, applied to a
non-empty output list with `n_pre_poses = 0`, deletes the previous window
entirely (`out_list[-1][:-0]` is empty, here `[[5]]` becomes `[[]]`) and
cross-fades every frame of the current window (`7` becomes
`5 * 1/2 + 7 * 1/2 = 6`) instead of leaving both untouched. -/
theorem c4_pre_poses_zero_not_noop :
    generate_gestures ⟨3, 0, 1⟩ (0 : ℚ) ⟨1, 2, 3, []⟩ (fun _ _ => [])
      (fun _ _ _ => (Except.ok [1, 1, 1] : Except Unit (List ℚ)))
      [⟨"a", 0, 4⟩] none = .error .shapeMismatch ∧
    (smoothTransition 0 [[(5 : ℚ)]] [7]).1 = [[]] ∧
    ((smoothTransition 0 [[(5 : ℚ)]] [7]).2).getD 0 0 = 6 ∧
    smoothTransition 0 [[(5 : ℚ)]] [7] ≠ ([[(5 : ℚ)]], [7]) := by
  have hN : (num_subdivision_capped ⟨3, 0, 1⟩ (clipLen [⟨"a", 0, 4⟩])).toNat = 2 := by
    have h : num_subdivision ⟨3, 0, 1⟩ (clipLen [⟨"a", 0, 4⟩]) = 2 := by
      rw [num_subdivision, if_neg (by norm_num [clipLen, unit_time])]
      have hc : ⌈(clipLen [⟨"a", 0, 4⟩] - unit_time ⟨3, 0, 1⟩) /
          stride_time ⟨3, 0, 1⟩⌉ = 1 := by
        norm_num [clipLen, unit_time, stride_time, Int.ceil_eq_iff]
      rw [hc]
      rfl
    rw [num_subdivision_capped, h]
    rfl
  have hblend : ((smoothTransition 0 [[(5 : ℚ)]] [7]).2).getD 0 0 = 6 := by
    have he : smoothTransition 0 [[(5 : ℚ)]] [7] =
        smoothTransition 0 ([] ++ [[(5 : ℚ)]]) [7] := rfl
    rw [he, smoothTransition_concat]
    have hb : 0 < (smoothUpdate (pyTail 0 [(5 : ℚ)]) [7]).length := by
      rw [smoothUpdate_length]
      norm_num
    rw [List.getD_eq_get _ _ hb,
      smoothUpdate_get (pyTail 0 [(5 : ℚ)]) [7] 0 (by norm_num [pyTail]) (by norm_num)]
    norm_num [pyTail, smul_eq_mul]
  refine ⟨?_, rfl, hblend, ?_⟩
  · rw [generate_gestures_count_eq ⟨3, 0, 1⟩ ⟨1, 2, 3, []⟩ (fun _ _ => [])
      (fun _ _ _ => (Except.ok [1, 1, 1] : Except Unit (List ℚ))) (0 : ℚ)
      [⟨"a", 0, 4⟩] none [] 2 rfl hN]
    decide
  · intro h
    have h1 : (smoothTransition 0 [[(5 : ℚ)]] [7]).1 = [[(5 : ℚ)]] := by rw [h]
    rw [show (smoothTransition 0 [[(5 : ℚ)]] [7]).1 = [[]] from rfl] at h1
    exact absurd h1 (by decide)

theorem getD_map_range {α : Type _} (g : ℕ → α) (N i : ℕ) (hi : i < N)
    (d : α) : ((List.range N).map g).getD i d = g i := by
  have hlen : i < ((List.range N).map g).length := by simpa using hi
  rw [List.getD_eq_get _ _ hlen, List.get_map]
  congr 1
  exact List.get_range _ _

/-- C6 is false as stated: with `n_pre_poses = 40 > n_poses = 30`
(framerate 15) and a short transcript (clip length `1 < unit_time = 2`),
`generate_gestures` raises no error at all — there is no construction-time
validation anywhere in the code — and the predictor is invoked exactly
once, contradicting both "a ValidationError is raised" and "zero predictor
calls occur". -/
theorem c6_no_validation_counterexample :
    Except.map (fun st : GGState ℚ => st.calls)
      (generate_gestures ⟨30, 40, 15⟩ (0 : ℚ) ⟨1, 2, 3, []⟩ (fun _ _ => [])
        (fun _ _ _ => (Except.ok (List.replicate 30 0) : Except Unit (List ℚ)))
        [⟨"a", 0, 1⟩] none) = Except.ok 1 := by
  have hN : (num_subdivision_capped ⟨30, 40, 15⟩ (clipLen [⟨"a", 0, 1⟩])).toNat = 1 := by
    have h : num_subdivision ⟨30, 40, 15⟩ (clipLen [⟨"a", 0, 1⟩]) = 1 := by
      rw [num_subdivision, if_pos (by norm_num [clipLen, unit_time])]
    rw [num_subdivision_capped, h]
    rfl
  rw [generate_gestures_count_eq ⟨30, 40, 15⟩ ⟨1, 2, 3, []⟩ (fun _ _ => [])
    (fun _ _ _ => (Except.ok (List.replicate 30 0) : Except Unit (List ℚ)))
    (0 : ℚ) [⟨"a", 0, 1⟩] none (List.replicate 40 0) 1 rfl hN]
  decide

/-- C6 (amended): the code performs no configuration validation at all.
With `n_pre_poses = 40 > n_poses = 30` and framerate 15: a run whose clip
length is below `unit_time` succeeds after exactly one predictor call, and
a run with a long clip (here 100 s, `num_subdivision = -146 ≤ 0`) performs zero predictor
invocations — the terminal error is `np.vstack([])` failing on the empty
output list, not a validation error and not a predictor error, even with a
predictor that would fail if it were ever invoked. -/
theorem c6_amended_no_validation :
    num_subdivision ⟨30, 40, 15⟩ (clipLen [⟨"b", 0, 100⟩]) = -146 ∧
    generate_gestures ⟨30, 40, 15⟩ (0 : ℚ) ⟨1, 2, 3, []⟩ (fun _ _ => [])
      (fun _ _ _ => (Except.error () : Except Unit (List ℚ)))
      [⟨"b", 0, 100⟩] none = .error .emptyAggregate := by
  have h : num_subdivision ⟨30, 40, 15⟩ (clipLen [⟨"b", 0, 100⟩]) = -146 := by
    rw [num_subdivision, if_neg (by norm_num [clipLen, unit_time])]
    have hc : ⌈(clipLen [⟨"b", 0, 100⟩] - unit_time ⟨30, 40, 15⟩) /
        stride_time ⟨30, 40, 15⟩⌉ = -147 := by
      norm_num [clipLen, unit_time, stride_time, Int.ceil_eq_iff]
    rw [hc]
    rfl
  have hN : (num_subdivision_capped ⟨30, 40, 15⟩ (clipLen [⟨"b", 0, 100⟩])).toNat = 0 := by
    rw [num_subdivision_capped, h]
    rfl
  refine ⟨h, ?_⟩
  rw [generate_gestures_count_eq ⟨30, 40, 15⟩ ⟨1, 2, 3, []⟩ (fun _ _ => [])
    (fun _ _ _ => (Except.error () : Except Unit (List ℚ))) (0 : ℚ)
    [⟨"b", 0, 100⟩] none (List.replicate 40 0) 0 rfl hN]
  decide

/-- C7 (amended): if the predictor invocation for some window `k` fails
(after succeeding on every earlier window), the whole run aborts with no
partial result — `generate_gestures` returns an error, not a pose
sequence — and the terminal error is the predictor's own error `e`
propagated verbatim as `GGErr.predictor e`; nothing in it records the
index `k` of the failing window. -/
theorem c7_abort_on_predictor_failure [AddCommMonoid V] [Module ℚ V]
    (a : Args) (lm : LangModel) (gw : ℚ → ℚ → List Word)
    (pd : List ℤ → ℕ → List V → Except ε (List V)) (mean : V)
    (words : List Word) (raws : ℕ → List V) (k : ℕ) (e : ε)
    (h1 : 1 ≤ a.n_pre_poses) (h2 : a.n_pre_poses ≤ a.n_poses)
    (hk : k < (num_subdivision_capped a (clipLen words)).toNat)
    (hraw : ∀ i, i < k → (raws i).length = a.n_poses)
    (hok : ∀ i, i < k →
      pd (wIdxAt a lm gw i) (wIdxAt a lm gw i).length
        (seedAt a raws (List.replicate a.n_pre_poses mean) i) = .ok (raws i))
    (hfail : pd (wIdxAt a lm gw k) (wIdxAt a lm gw k).length
      (seedAt a raws (List.replicate a.n_pre_poses mean) k) = .error e) :
    generate_gestures a mean lm gw pd words none = .error (.predictor e) := by
  obtain ⟨st, hrun, hcalls, hseeds, hpre, hcase⟩ :=
    ggRun_closedForm a lm gw pd (List.replicate a.n_pre_poses mean) raws h1 h2
      k hraw hok
  have hstep : ggStep a lm gw pd k st = .error (.predictor e) := by
    cases k with
    | zero =>
      exact ggStep_zero_err (by rw [hpre]; exact hfail)
    | succ j =>
      rcases hcase with ⟨hj0, _, _⟩ | ⟨m, front, lastw, hm, _, _, _, hprev⟩
      · exact absurd hj0 (by omega)
      · have hmj : m = j := by omega
        rw [hmj] at hprev
        exact ggStep_succ_err hprev
          (pyTail_length _ (by omega) _
            (by rw [hraw j (by omega)]; exact h2)) hfail
  have herr : ggRun a lm gw pd
      (initState (List.replicate a.n_pre_poses mean)) (k + 1) =
      .error (.predictor e) := by
    rw [ggRun, hrun]
    exact hstep
  have herrN : ggRun a lm gw pd
      (initState (List.replicate a.n_pre_poses mean))
      ((num_subdivision_capped a (clipLen words)).toNat) =
      .error (.predictor e) :=
    ggRun_error_mono a lm gw pd _ (k + 1) _ _ (by omega) herr
  rw [generate_gestures_count_eq a lm gw pd mean words none
    (List.replicate a.n_pre_poses mean)
    ((num_subdivision_capped a (clipLen words)).toNat) rfl rfl]
  rw [herrN]

/-- Concrete instance of `c7_abort_on_predictor_failure`: the predictor
accepts the first window's seed `[0]` and rejects the second window's seed
`[5]`; the run aborts with the predictor error propagated verbatim. -/
theorem c7_abort_on_predictor_failure_witness :
    generate_gestures ⟨2, 1, 1⟩ (0 : ℚ) ⟨1, 2, 3, []⟩ (fun _ _ => [])
      (fun _ _ ps => if ps = [(0 : ℚ)] then Except.ok [5, 5]
        else (Except.error () : Except Unit (List ℚ)))
      [⟨"a", 0, 3⟩] none = .error (.predictor ()) :=
  c7_abort_on_predictor_failure ⟨2, 1, 1⟩ ⟨1, 2, 3, []⟩ (fun _ _ => [])
    (fun _ _ ps => if ps = [(0 : ℚ)] then Except.ok [5, 5]
      else (Except.error () : Except Unit (List ℚ))) (0 : ℚ)
    [⟨"a", 0, 3⟩] (fun _ => [5, 5]) 1 () (by norm_num) (by norm_num)
    (by
      have h : num_subdivision ⟨2, 1, 1⟩ (clipLen [⟨"a", 0, 3⟩]) = 2 := by
        norm_num [num_subdivision, unit_time, stride_time, clipLen]
      rw [num_subdivision_capped, h]
      norm_num)
    (fun i _ => rfl)
    (fun i hi => by
      have h0 : i = 0 := by omega
      subst h0
      decide)
    (by decide)

/-- C7 is false as stated: two runs over the same transcript and
configuration, one whose predictor fails already at window 0 and one whose
predictor succeeds at window 0 (seed `[0]`) and fails at window 1 (seed
`[5]`), terminate with the *identical* error `GGErr.predictor ()` — the
code re-raises the predictor's exception unchanged, so the terminal error
does not name the index of the failing window. -/
theorem c7_error_names_no_window_counterexample :
    generate_gestures ⟨2, 1, 1⟩ (0 : ℚ) ⟨1, 2, 3, []⟩ (fun _ _ => [])
      (fun _ _ _ => (Except.error () : Except Unit (List ℚ)))
      [⟨"a", 0, 3⟩] none = .error (.predictor ()) ∧
    generate_gestures ⟨2, 1, 1⟩ (0 : ℚ) ⟨1, 2, 3, []⟩ (fun _ _ => [])
      (fun _ _ ps => if ps = [(5 : ℚ)] then (Except.error () : Except Unit (List ℚ))
        else Except.ok [5, 5])
      [⟨"a", 0, 3⟩] none = .error (.predictor ()) ∧
    (∀ wi k ps, ((fun _ _ _ => Except.error ()) :
      List ℤ → ℕ → List ℚ → Except Unit (List ℚ)) wi k ps = Except.error ()) ∧
    ((fun _ _ ps => if ps = [(5 : ℚ)] then Except.error () else Except.ok [5, 5]) :
      List ℤ → ℕ → List ℚ → Except Unit (List ℚ)) [] 0 [(0 : ℚ)] = Except.ok [5, 5] ∧
    ((fun _ _ ps => if ps = [(5 : ℚ)] then Except.error () else Except.ok [5, 5]) :
      List ℤ → ℕ → List ℚ → Except Unit (List ℚ)) [] 0 [(5 : ℚ)] = Except.error () := by
  have hN : (num_subdivision_capped ⟨2, 1, 1⟩ (clipLen [⟨"a", 0, 3⟩])).toNat = 2 := by
    have h : num_subdivision ⟨2, 1, 1⟩ (clipLen [⟨"a", 0, 3⟩]) = 2 := by
      norm_num [num_subdivision, unit_time, stride_time, clipLen]
    rw [num_subdivision_capped, h]
    rfl
  refine ⟨?_, ?_, fun _ _ _ => rfl, by decide, by decide⟩
  · rw [generate_gestures_count_eq ⟨2, 1, 1⟩ ⟨1, 2, 3, []⟩ (fun _ _ => [])
      (fun _ _ _ => (Except.error () : Except Unit (List ℚ))) (0 : ℚ)
      [⟨"a", 0, 3⟩] none (List.replicate 1 0) 2 rfl hN]
    decide
  · rw [generate_gestures_count_eq ⟨2, 1, 1⟩ ⟨1, 2, 3, []⟩ (fun _ _ => [])
      (fun _ _ ps => if ps = [(5 : ℚ)] then (Except.error () : Except Unit (List ℚ))
        else Except.ok [5, 5]) (0 : ℚ)
      [⟨"a", 0, 3⟩] none (List.replicate 1 0) 2 rfl hN]
    decide

/-- C10: when `generate_gestures` is called with a non-`none` `seed_seq`,
the first window's seed context is the first `n_pre_poses` frames of
`seed_seq` (the torch assignment at line 30 requires `seed_seq` to supply
at least `n_pre_poses` frames; with fewer, the run fails before any
predictor call), and the global mean pose is used as the first-window seed
only when `seed_seq` is `none`. -/
theorem c10_seed_seq_first_window [AddCommMonoid V] [Module ℚ V] (a : Args)
    (lm : LangModel) (gw : ℚ → ℚ → List Word) (mean : V)
    (f : List ℤ → ℕ → List V → List V) (words : List Word) (s : List V)
    (h1 : 1 ≤ a.n_pre_poses) (h2 : a.n_pre_poses ≤ a.n_poses)
    (hf : ∀ wi k ps, (f wi k ps).length = a.n_poses)
    (hN : 1 ≤ (num_subdivision_capped a (clipLen words)).toNat) :
    (a.n_pre_poses ≤ s.length →
      ∃ st : GGState V,
        generate_gestures a mean lm gw
          (fun wi k ps => (Except.ok (f wi k ps) : Except ε (List V)))
          words (some s) = .ok st ∧
        st.seeds.getD 0 [] = s.take a.n_pre_poses) ∧
    (s.length < a.n_pre_poses →
      generate_gestures a mean lm gw
        (fun wi k ps => (Except.ok (f wi k ps) : Except ε (List V)))
        words (some s) = .error .shapeMismatch) ∧
    (∃ st : GGState V,
      generate_gestures a mean lm gw
        (fun wi k ps => (Except.ok (f wi k ps) : Except ε (List V)))
        words none = .ok st ∧
      st.seeds.getD 0 [] = List.replicate a.n_pre_poses mean) := by
  refine ⟨?_, ?_, ?_⟩
  · intro hs
    obtain ⟨st, hok, _, hseeds, _⟩ :=
      generate_gestures_closedForm a lm gw
        (fun wi k ps => (Except.ok (f wi k ps) : Except ε (List V))) mean
        words (some s) (s.take a.n_pre_poses)
        (rawsOf a lm gw f (s.take a.n_pre_poses))
        (by simp [initPreSeq, hs]) h1 h2 hN
        (fun i _ => rawsOf_length a lm gw f _ hf i)
        (fun i _ => rawsOf_pred_ok a lm gw f _ i)
    refine ⟨st, hok, ?_⟩
    rw [hseeds, getD_map_range _ _ _ (by omega)]
    rfl
  · intro hs
    unfold generate_gestures
    have hie : initPreSeq (ε := ε) a mean (some s) =
        (Except.error .shapeMismatch : Except (GGErr ε) (List V)) := by
      simp only [initPreSeq]
      rw [if_neg (by omega)]
    rw [hie]
  · obtain ⟨st, hok, _, hseeds, _⟩ :=
      generate_gestures_closedForm a lm gw
        (fun wi k ps => (Except.ok (f wi k ps) : Except ε (List V))) mean
        words none (List.replicate a.n_pre_poses mean)
        (rawsOf a lm gw f (List.replicate a.n_pre_poses mean)) rfl h1 h2 hN
        (fun i _ => rawsOf_length a lm gw f _ hf i)
        (fun i _ => rawsOf_pred_ok a lm gw f _ i)
    refine ⟨st, hok, ?_⟩
    rw [hseeds, getD_map_range _ _ _ (by omega)]
    rfl

/-- Concrete instance of `c10_seed_seq_first_window`: `n_pre_poses = 1`,
`seed_seq = [8, 9]`; the first window's seed is `[8]`, and with
`seed_seq = none` it is the repeated mean pose `[0]`. -/
theorem c10_seed_seq_first_window_witness :
    ((1 : ℕ) ≤ ([8, 9] : List ℚ).length →
      ∃ st : GGState ℚ,
        generate_gestures ⟨2, 1, 1⟩ (0 : ℚ) ⟨1, 2, 3, []⟩ (fun _ _ => [])
          (fun wi k ps => (Except.ok ((fun _ _ _ => [4, 4]) wi k ps) :
            Except Unit (List ℚ))) [⟨"a", 0, 3⟩] (some [8, 9]) = .ok st ∧
        st.seeds.getD 0 [] = ([8, 9] : List ℚ).take 1) ∧
    (([8, 9] : List ℚ).length < 1 →
      generate_gestures ⟨2, 1, 1⟩ (0 : ℚ) ⟨1, 2, 3, []⟩ (fun _ _ => [])
        (fun wi k ps => (Except.ok ((fun _ _ _ => [4, 4]) wi k ps) :
          Except Unit (List ℚ))) [⟨"a", 0, 3⟩] (some [8, 9]) =
        .error .shapeMismatch) ∧
    (∃ st : GGState ℚ,
      generate_gestures ⟨2, 1, 1⟩ (0 : ℚ) ⟨1, 2, 3, []⟩ (fun _ _ => [])
        (fun wi k ps => (Except.ok ((fun _ _ _ => [4, 4]) wi k ps) :
          Except Unit (List ℚ))) [⟨"a", 0, 3⟩] none = .ok st ∧
      st.seeds.getD 0 [] = List.replicate 1 (0 : ℚ)) :=
  c10_seed_seq_first_window ⟨2, 1, 1⟩ ⟨1, 2, 3, []⟩ (fun _ _ => []) (0 : ℚ)
    (fun _ _ _ => [4, 4]) [⟨"a", 0, 3⟩] [8, 9] (by norm_num) (by norm_num)
    (fun _ _ _ => rfl)
    (by
      have h : num_subdivision ⟨2, 1, 1⟩ (clipLen [⟨"a", 0, 3⟩]) = 2 := by
        norm_num [num_subdivision, unit_time, stride_time, clipLen]
      rw [num_subdivision_capped, h]
      norm_num)

/-- Concrete instance of `c8_encode_word_indices`: vocabulary with
`SOS = 1`, `EOS = 2`, `UNK = 3` and one known word `"hello" ↦ 10`; the
window `["hello", "zzz"]` encodes to `[1, 10, 3, 2]` of length 4. -/
theorem c8_encode_word_indices_witness :
    encodeWords ⟨1, 2, 3, [("hello", 10)]⟩ ["hello", "zzz"] = [1, 10, 3, 2] ∧
    (encodeWords ⟨1, 2, 3, [("hello", 10)]⟩ ["hello", "zzz"]).length = 4 := by
  have h := c8_encode_word_indices ⟨1, 2, 3, [("hello", 10)]⟩ ["hello", "zzz"]
  refine ⟨?_, h.2.1⟩
  rw [h.1]
  decide

/-- Device-aware variant of `ggStep`.  Line 20 picks
`device = cuda if available else cpu`; on a CUDA device line 75's
`out_poses[0, :, :].data.cpu().numpy()` copies the tensor, but on a CPU
device `.cpu()` is the identity and `.numpy()` shares memory, so the
in-place blend of lines 82-86 also mutates `out_poses` — the tensor whose
tail line 69 slices for the next seed.  Hence the previous raw output seen
by the next iteration is `out_poses` itself on CUDA, and the blended array
on CPU (its first `len(last_poses)` frames rewritten, the rest untouched). -/
def ggStepDevice [AddCommMonoid V] [Module ℚ V] (cuda : Bool) (a : Args)
    (lm : LangModel) (getWords : ℚ → ℚ → List Word)
    (pose_decoder : List ℤ → ℕ → List V → Except ε (List V))
    (i : ℕ) (st : GGState V) : Except (GGErr ε) (GGState V) :=
  let word_indices := wIdxAt a lm getWords i
  let pre_step : Except (GGErr ε) (List V) :=
    if 0 < i then
      let src := pyTail a.n_pre_poses ((st.prev_raw).getD [])
      if src.length = a.n_pre_poses then .ok src else .error .shapeMismatch
    else .ok st.pre_seq
  match pre_step with
  | .error e => .error e
  | .ok pre_seq =>
    match pose_decoder word_indices word_indices.length pre_seq with
    | .error e => .error (.predictor e)
    | .ok out_poses =>
      let p := smoothTransition a.n_pre_poses st.out_list out_poses
      .ok { out_list := p.1 ++ [p.2], pre_seq := pre_seq,
            prev_raw := some (if cuda then out_poses else p.2),
            seeds := st.seeds ++ [pre_seq], calls := st.calls + 1 }

/-- The loop of line 50 over the device-aware step. -/
def ggRunDevice [AddCommMonoid V] [Module ℚ V] (cuda : Bool) (a : Args)
    (lm : LangModel) (getWords : ℚ → ℚ → List Word)
    (pose_decoder : List ℤ → ℕ → List V → Except ε (List V))
    (st : GGState V) : ℕ → Except (GGErr ε) (GGState V)
  | 0 => .ok st
  | n + 1 =>
    match ggRunDevice cuda a lm getWords pose_decoder st n with
    | .error e => .error e
    | .ok s => ggStepDevice cuda a lm getWords pose_decoder n s

/-- Device-aware `generate_gestures` (lines 23-96); `cuda` records the
outcome of line 20's `torch.cuda.is_available()`. -/
def generate_gestures_device [AddCommMonoid V] [Module ℚ V] (cuda : Bool)
    (a : Args) (mean : V) (lm : LangModel) (getWords : ℚ → ℚ → List Word)
    (pose_decoder : List ℤ → ℕ → List V → Except ε (List V))
    (words : List Word) (seed_seq : Option (List V)) :
    Except (GGErr ε) (GGState V) :=
  let clip_length := clipLen words
  match initPreSeq a mean seed_seq with
  | .error e => .error e
  | .ok pre0 =>
    let count := (num_subdivision_capped a clip_length).toNat
    match ggRunDevice cuda a lm getWords pose_decoder (initState pre0) count with
    | .error e => .error e
    | .ok st => if st.out_list.isEmpty then .error .emptyAggregate else .ok st

theorem ggStepDevice_cuda_eq_ggStep [AddCommMonoid V] [Module ℚ V]
    (a : Args) (lm : LangModel) (getWords : ℚ → ℚ → List Word)
    (pose_decoder : List ℤ → ℕ → List V → Except ε (List V))
    (i : ℕ) (st : GGState V) :
    ggStepDevice true a lm getWords pose_decoder i st =
      ggStep a lm getWords pose_decoder i st := rfl

theorem ggRunDevice_cuda_eq_ggRun [AddCommMonoid V] [Module ℚ V]
    (a : Args) (lm : LangModel) (getWords : ℚ → ℚ → List Word)
    (pose_decoder : List ℤ → ℕ → List V → Except ε (List V))
    (st : GGState V) (count : ℕ) :
    ggRunDevice true a lm getWords pose_decoder st count =
      ggRun a lm getWords pose_decoder st count := by
  induction count with
  | zero => rfl
  | succ n ih =>
    rw [ggRunDevice, ggRun, ih]
    rfl

theorem generate_gestures_device_cuda_eq [AddCommMonoid V] [Module ℚ V]
    (a : Args) (mean : V) (lm : LangModel) (getWords : ℚ → ℚ → List Word)
    (pose_decoder : List ℤ → ℕ → List V → Except ε (List V))
    (words : List Word) (seed_seq : Option (List V)) :
    generate_gestures_device true a mean lm getWords pose_decoder words seed_seq =
      generate_gestures a mean lm getWords pose_decoder words seed_seq := by
  unfold generate_gestures_device generate_gestures
  dsimp only
  cases initPreSeq (ε := ε) a mean seed_seq with
  | error e => rfl
  | ok pre0 =>
    dsimp only
    rw [ggRunDevice_cuda_eq_ggRun]

theorem smoothUpdate_drop [AddCommMonoid V] [Module ℚ V]
    (last_poses out_seq : List V) (m : ℕ) (h : last_poses.length ≤ m) :
    (smoothUpdate last_poses out_seq).drop m = out_seq.drop m := by
  apply List.ext_get
  · simp [smoothUpdate_length]
  · intro i hi1 hi2
    have hm1 : m + i < (smoothUpdate last_poses out_seq).length := by
      simp only [List.length_drop, smoothUpdate_length] at hi1 ⊢
      omega
    have hm2 : m + i < out_seq.length := by
      simp only [List.length_drop] at hi2 ⊢
      omega
    rw [← List.get_drop _ hm1, ← List.get_drop _ hm2]
    unfold smoothUpdate
    rw [List.get_mapIdx _ _ (m + i) hm2]
    rw [dif_neg (by omega)]

theorem ggStepDevice_zero_ok [AddCommMonoid V] [Module ℚ V] (cuda : Bool)
    {a : Args} {lm : LangModel} {gw : ℚ → ℚ → List Word}
    {pd : List ℤ → ℕ → List V → Except ε (List V)} {st : GGState V}
    {raw : List V}
    (hpd : pd (wIdxAt a lm gw 0) (wIdxAt a lm gw 0).length st.pre_seq = .ok raw) :
    ggStepDevice cuda a lm gw pd 0 st = .ok
      { out_list := (smoothTransition a.n_pre_poses st.out_list raw).1 ++
          [(smoothTransition a.n_pre_poses st.out_list raw).2],
        pre_seq := st.pre_seq,
        prev_raw := some (if cuda then raw
          else (smoothTransition a.n_pre_poses st.out_list raw).2),
        seeds := st.seeds ++ [st.pre_seq], calls := st.calls + 1 } := by
  simp [ggStepDevice, hpd]

theorem ggStepDevice_succ_ok [AddCommMonoid V] [Module ℚ V] (cuda : Bool)
    {a : Args} {lm : LangModel} {gw : ℚ → ℚ → List Word}
    {pd : List ℤ → ℕ → List V → Except ε (List V)} {k : ℕ} {st : GGState V}
    {prev raw : List V}
    (hprev : st.prev_raw = some prev)
    (hlen : (pyTail a.n_pre_poses prev).length = a.n_pre_poses)
    (hpd : pd (wIdxAt a lm gw (k + 1)) (wIdxAt a lm gw (k + 1)).length
      (pyTail a.n_pre_poses prev) = .ok raw) :
    ggStepDevice cuda a lm gw pd (k + 1) st = .ok
      { out_list := (smoothTransition a.n_pre_poses st.out_list raw).1 ++
          [(smoothTransition a.n_pre_poses st.out_list raw).2],
        pre_seq := pyTail a.n_pre_poses prev,
        prev_raw := some (if cuda then raw
          else (smoothTransition a.n_pre_poses st.out_list raw).2),
        seeds := st.seeds ++ [pyTail a.n_pre_poses prev],
        calls := st.calls + 1 } := by
  simp [ggStepDevice, hprev, hlen, hpd]

/-- Closed-form description of a successful device-aware run, valid when
the device is CUDA (line 75's `.cpu()` makes a real copy) or when
`2 * n_pre_poses ≤ n_poses` (the blend rewrites frames `0..n_pre_poses-1`
of a window's stored array while line 69 slices its last `n_pre_poses`
frames, and these regions are disjoint): every seed is the raw tail
`seedAt`, as in `ggRun_closedForm`, and the previous stored output agrees
with the raw output on the sliced tail. -/
theorem ggRunDevice_closedForm [AddCommMonoid V] [Module ℚ V] (cuda : Bool)
    (a : Args) (lm : LangModel) (gw : ℚ → ℚ → List Word)
    (pd : List ℤ → ℕ → List V → Except ε (List V))
    (pre0 : List V) (raws : ℕ → List V)
    (h1 : 1 ≤ a.n_pre_poses) (h2 : a.n_pre_poses ≤ a.n_poses)
    (hdev : cuda = true ∨ 2 * a.n_pre_poses ≤ a.n_poses) :
    ∀ count : ℕ,
      (∀ i, i < count → (raws i).length = a.n_poses) →
      (∀ i, i < count →
        pd (wIdxAt a lm gw i) (wIdxAt a lm gw i).length (seedAt a raws pre0 i) =
          .ok (raws i)) →
      ∃ st : GGState V,
        ggRunDevice cuda a lm gw pd (initState pre0) count = .ok st ∧
        st.calls = count ∧
        st.seeds = (List.range count).map (seedAt a raws pre0) ∧
        st.pre_seq = seedAt a raws pre0 (count - 1) ∧
        ((count = 0 ∧ st.out_list = [] ∧ st.prev_raw = none) ∨
          (∃ k front lastw pr, count = k + 1 ∧ st.out_list = front ++ [lastw] ∧
            front.map List.length =
              List.replicate k (a.n_poses - a.n_pre_poses) ∧
            lastw.length = a.n_poses ∧ st.prev_raw = some pr ∧
            pr.length = a.n_poses ∧
            pyTail a.n_pre_poses pr = pyTail a.n_pre_poses (raws k))) := by
  intro count
  induction count with
  | zero =>
    intro _ _
    exact ⟨initState pre0, rfl, rfl, by simp [initState], rfl,
      Or.inl ⟨rfl, rfl, rfl⟩⟩
  | succ n ih =>
    intro hraw hpred
    obtain ⟨st, hrun, hcalls, hseeds, hpre, hcase⟩ :=
      ih (fun i hi => hraw i (Nat.lt_succ_of_lt hi))
        (fun i hi => hpred i (Nat.lt_succ_of_lt hi))
    have hnn : n < n + 1 := Nat.lt_succ_self n
    rcases hcase with ⟨hn0, hout, hprev⟩ |
      ⟨k, front, lastw, pr, hk, hout, hfront, hlast, hprev, hprlen, hprtail⟩
    · -- n = 0 : first iteration
      subst hn0
      have hpd0 : pd (wIdxAt a lm gw 0) (wIdxAt a lm gw 0).length st.pre_seq =
          .ok (raws 0) := by
        rw [hpre]
        exact hpred 0 hnn
      have hstep := ggStepDevice_zero_ok cuda hpd0
      have hsm : smoothTransition a.n_pre_poses st.out_list (raws 0) =
          (([] : List (List V)), raws 0) := by
        rw [hout, smoothTransition_nil]
      refine ⟨{ out_list := (smoothTransition a.n_pre_poses st.out_list (raws 0)).1 ++
                  [(smoothTransition a.n_pre_poses st.out_list (raws 0)).2],
                pre_seq := st.pre_seq,
                prev_raw := some (if cuda then raws 0
                  else (smoothTransition a.n_pre_poses st.out_list (raws 0)).2),
                seeds := st.seeds ++ [st.pre_seq], calls := st.calls + 1 },
        ?_, ?_, ?_, ?_, ?_⟩
      · show ggRunDevice cuda a lm gw pd (initState pre0) (0 + 1) = _
        rw [ggRunDevice, hrun]
        exact hstep
      · simpa using hcalls
      · simp [hseeds, hpre, List.range_succ]
      · simpa using hpre
      · refine Or.inr ⟨0, [], (smoothTransition a.n_pre_poses st.out_list (raws 0)).2,
          (if cuda then raws 0
            else (smoothTransition a.n_pre_poses st.out_list (raws 0)).2),
          rfl, by rw [hsm], by simp, ?_, rfl, ?_, ?_⟩
        · rw [hsm]
          exact hraw 0 hnn
        · rw [hsm]
          cases cuda <;> simp [hraw 0 hnn]
        · rw [hsm]
          cases cuda <;> simp
    · -- n = k + 1 : subsequent iteration
      subst hk
      have hlenk : (pyTail a.n_pre_poses pr).length = a.n_pre_poses :=
        pyTail_length _ (by omega) _ (by rw [hprlen]; exact h2)
      have hseedk : pyTail a.n_pre_poses pr = seedAt a raws pre0 (k + 1) := by
        rw [hprtail]
        rfl
      have hpdk : pd (wIdxAt a lm gw (k + 1)) (wIdxAt a lm gw (k + 1)).length
          (pyTail a.n_pre_poses pr) = .ok (raws (k + 1)) := by
        rw [hseedk]
        exact hpred (k + 1) hnn
      have hstep := ggStepDevice_succ_ok cuda hprev hlenk hpdk
      refine ⟨{ out_list :=
                  (smoothTransition a.n_pre_poses st.out_list (raws (k + 1))).1 ++
                  [(smoothTransition a.n_pre_poses st.out_list (raws (k + 1))).2],
                pre_seq := pyTail a.n_pre_poses pr,
                prev_raw := some (if cuda then raws (k + 1)
                  else (smoothTransition a.n_pre_poses st.out_list (raws (k + 1))).2),
                seeds := st.seeds ++ [pyTail a.n_pre_poses pr],
                calls := st.calls + 1 },
        ?_, ?_, ?_, ?_, ?_⟩
      · show ggRunDevice cuda a lm gw pd (initState pre0) (k + 1 + 1) = _
        rw [ggRunDevice, hrun]
        exact hstep
      · simpa using hcalls
      · simp [hseeds, List.range_succ, hseedk]
      · simpa using hseedk
      · have hlp : (pyTail a.n_pre_poses lastw).length = a.n_pre_poses :=
          pyTail_length _ (by omega) _ (by rw [hlast]; exact h2)
        refine Or.inr ⟨k + 1, front ++ [pyDropTail a.n_pre_poses lastw],
          (smoothTransition a.n_pre_poses st.out_list (raws (k + 1))).2,
          (if cuda then raws (k + 1)
            else (smoothTransition a.n_pre_poses st.out_list (raws (k + 1))).2),
          rfl, ?_, ?_, ?_, rfl, ?_, ?_⟩
        · simp [hout, smoothTransition_concat]
        · simp [hfront, List.replicate_succ']
          rw [pyDropTail_length _ (by omega), hlast]
        · rw [hout, smoothTransition_concat]
          simp [smoothUpdate_length]
          exact hraw (k + 1) hnn
        · cases cuda with
          | true =>
            simp [hraw (k + 1) hnn]
          | false =>
            rw [hout, smoothTransition_concat]
            simp [smoothUpdate_length]
            exact hraw (k + 1) hnn
        · cases cuda with
          | true => simp
          | false =>
            have h2n : 2 * a.n_pre_poses ≤ a.n_poses := by
              rcases hdev with hcu | h2n
              · exact absurd hcu (by simp)
              · exact h2n
            have hrawlen := hraw (k + 1) hnn
            rw [hout, smoothTransition_concat]
            simp only [if_neg Bool.false_ne_true]
            have e1 : pyTail a.n_pre_poses
                (smoothUpdate (pyTail a.n_pre_poses lastw) (raws (k + 1))) =
                (smoothUpdate (pyTail a.n_pre_poses lastw) (raws (k + 1))).drop
                  ((raws (k + 1)).length - a.n_pre_poses) := by
              rw [pyTail_eq_drop _ (by omega), smoothUpdate_length]
            rw [e1, smoothUpdate_drop _ _ _ (by rw [hlp]; omega),
              ← pyTail_eq_drop _ (by omega)]

theorem generate_gestures_device_count_eq [AddCommMonoid V] [Module ℚ V]
    (cuda : Bool) (a : Args) (lm : LangModel) (gw : ℚ → ℚ → List Word)
    (pd : List ℤ → ℕ → List V → Except ε (List V)) (mean : V)
    (words : List Word) (seed_seq : Option (List V)) (pre0 : List V) (N : ℕ)
    (hinit : initPreSeq (ε := ε) a mean seed_seq = Except.ok pre0)
    (hcnt : (num_subdivision_capped a (clipLen words)).toNat = N) :
    generate_gestures_device cuda a mean lm gw pd words seed_seq =
      match ggRunDevice cuda a lm gw pd (initState pre0) N with
      | .error e => .error e
      | .ok st =>
        if st.out_list.isEmpty then .error .emptyAggregate else .ok st := by
  unfold generate_gestures_device
  rw [hinit]
  dsimp only
  rw [hcnt]

theorem generate_gestures_device_closedForm [AddCommMonoid V] [Module ℚ V]
    (cuda : Bool) (a : Args) (lm : LangModel) (gw : ℚ → ℚ → List Word)
    (pd : List ℤ → ℕ → List V → Except ε (List V)) (mean : V)
    (words : List Word) (seed_seq : Option (List V)) (pre0 : List V)
    (raws : ℕ → List V)
    (hinit : initPreSeq (ε := ε) a mean seed_seq = Except.ok pre0)
    (h1 : 1 ≤ a.n_pre_poses) (h2 : a.n_pre_poses ≤ a.n_poses)
    (hdev : cuda = true ∨ 2 * a.n_pre_poses ≤ a.n_poses)
    (hN : 1 ≤ (num_subdivision_capped a (clipLen words)).toNat)
    (hraw : ∀ i, i < (num_subdivision_capped a (clipLen words)).toNat →
      (raws i).length = a.n_poses)
    (hpred : ∀ i, i < (num_subdivision_capped a (clipLen words)).toNat →
      pd (wIdxAt a lm gw i) (wIdxAt a lm gw i).length (seedAt a raws pre0 i) =
        Except.ok (raws i)) :
    ∃ st : GGState V,
      generate_gestures_device cuda a mean lm gw pd words seed_seq =
        Except.ok st ∧
      st.calls = (num_subdivision_capped a (clipLen words)).toNat ∧
      st.seeds = (List.range (num_subdivision_capped a (clipLen words)).toNat).map
        (seedAt a raws pre0) := by
  obtain ⟨st, hrun, hcalls, hseeds, hpre, hcase⟩ :=
    ggRunDevice_closedForm cuda a lm gw pd pre0 raws h1 h2 hdev
      ((num_subdivision_capped a (clipLen words)).toNat) hraw hpred
  rcases hcase with ⟨hn0, _, _⟩ | ⟨k, front, lastw, pr, hk, hout, _, _, _, _, _⟩
  · omega
  · refine ⟨st, ?_, hcalls, hseeds⟩
    unfold generate_gestures_device
    rw [hinit]
    dsimp only
    rw [hrun]
    simp [hout]

/-- Vocabulary used by the concrete C5 runs. -/
def c5Lm : LangModel := ⟨1, 2, 3, []⟩

/-- Word-window query used by the concrete C5 runs (no words in range). -/
def c5Gw : ℚ → ℚ → List Word := fun _ _ => []

/-- Predictor used by the concrete C5 runs: always returns `[0, 0, 4]`. -/
def c5Pd : List ℤ → ℕ → List ℚ → Except Unit (List ℚ) :=
  fun _ _ _ => .ok [0, 0, 4]

/-- C5 is false as stated on a CPU device: with `n_poses = 3`,
`n_pre_poses = 2` (so `n_poses < 2 * n_pre_poses`), framerate 1, clip
length 5 (three windows) and a predictor that always returns `[0, 0, 4]`,
the seed of window 2 is `[4/3, 4]` — its first frame is the value the
blend wrote into window 1's stored array (`4 * 1/3 + 0 * 2/3 = 4/3`),
because on CPU line 75's `.cpu().numpy()` aliases `out_poses` — and not
`[0, 4]`, the last two frames of window 1's raw output, as the claim
demands.  The seed still has `n_pre_poses = 2` frames. -/
theorem c5_cpu_alias_counterexample :
    ∃ st : GGState ℚ,
      generate_gestures_device false ⟨3, 2, 1⟩ (0 : ℚ) c5Lm c5Gw c5Pd
        [⟨"a", 0, 5⟩] none = .ok st ∧
      st.seeds.getD 2 [] = [4 / 3, 4] ∧
      (st.seeds.getD 2 []).length = 2 ∧
      pyTail 2 [(0 : ℚ), 0, 4] = [0, 4] ∧
      ¬ st.seeds.getD 2 [] = pyTail 2 [(0 : ℚ), 0, 4] := by
  have hN : (num_subdivision_capped ⟨3, 2, 1⟩ (clipLen [⟨"a", 0, 5⟩])).toNat = 3 := by
    have h : num_subdivision ⟨3, 2, 1⟩ (clipLen [⟨"a", 0, 5⟩]) = 3 := by
      rw [num_subdivision, if_neg (by norm_num [clipLen, unit_time])]
      have hc : ⌈(clipLen [⟨"a", 0, 5⟩] - unit_time ⟨3, 2, 1⟩) /
          stride_time ⟨3, 2, 1⟩⌉ = 2 := by
        norm_num [clipLen, unit_time, stride_time]
      rw [hc]
      rfl
    rw [num_subdivision_capped, h]
    rfl
  have hsm : smoothUpdate [(0 : ℚ), 4] [0, 0, 4] = [0, 4 / 3, 4] := by
    norm_num [smoothUpdate, List.mapIdx_cons]
  have e1 : ggStepDevice false ⟨3, 2, 1⟩ c5Lm c5Gw c5Pd 0
      (initState [(0 : ℚ), 0]) =
      .ok ⟨[[0, 0, 4]], [0, 0], some [0, 0, 4], [[0, 0]], 1⟩ := rfl
  have e2 : ggStepDevice false ⟨3, 2, 1⟩ c5Lm c5Gw c5Pd 1
      (⟨[[0, 0, 4]], [0, 0], some [0, 0, 4], [[0, 0]], 1⟩ : GGState ℚ) =
      .ok ⟨[[0], smoothUpdate [(0 : ℚ), 4] [0, 0, 4]], [0, 4],
        some (smoothUpdate [(0 : ℚ), 4] [0, 0, 4]), [[0, 0], [0, 4]], 2⟩ := rfl
  rw [hsm] at e2
  have e3 : ggStepDevice false ⟨3, 2, 1⟩ c5Lm c5Gw c5Pd 2
      (⟨[[0], [0, 4 / 3, 4]], [0, 4], some [0, 4 / 3, 4],
        [[0, 0], [0, 4]], 2⟩ : GGState ℚ) =
      .ok ⟨[[0], [0], smoothUpdate [(4 / 3 : ℚ), 4] [0, 0, 4]], [4 / 3, 4],
        some (smoothUpdate [(4 / 3 : ℚ), 4] [0, 0, 4]),
        [[0, 0], [0, 4], [4 / 3, 4]], 3⟩ := rfl
  have r1 : ggRunDevice false ⟨3, 2, 1⟩ c5Lm c5Gw c5Pd
      (initState [(0 : ℚ), 0]) 1 =
      .ok ⟨[[0, 0, 4]], [0, 0], some [0, 0, 4], [[0, 0]], 1⟩ := by
    rw [show (1 : ℕ) = 0 + 1 from rfl, ggRunDevice, ggRunDevice]
    exact e1
  have r2 : ggRunDevice false ⟨3, 2, 1⟩ c5Lm c5Gw c5Pd
      (initState [(0 : ℚ), 0]) 2 =
      .ok ⟨[[0], [0, 4 / 3, 4]], [0, 4], some [0, 4 / 3, 4],
        [[0, 0], [0, 4]], 2⟩ := by
    rw [show (2 : ℕ) = 1 + 1 from rfl, ggRunDevice, r1]
    exact e2
  have r3 : ggRunDevice false ⟨3, 2, 1⟩ c5Lm c5Gw c5Pd
      (initState [(0 : ℚ), 0]) 3 =
      .ok ⟨[[0], [0], smoothUpdate [(4 / 3 : ℚ), 4] [0, 0, 4]], [4 / 3, 4],
        some (smoothUpdate [(4 / 3 : ℚ), 4] [0, 0, 4]),
        [[0, 0], [0, 4], [4 / 3, 4]], 3⟩ := by
    rw [show (3 : ℕ) = 2 + 1 from rfl, ggRunDevice, r2]
    exact e3
  refine ⟨⟨[[0], [0], smoothUpdate [(4 / 3 : ℚ), 4] [0, 0, 4]], [4 / 3, 4],
    some (smoothUpdate [(4 / 3 : ℚ), 4] [0, 0, 4]),
    [[0, 0], [0, 4], [4 / 3, 4]], 3⟩, ?_, rfl, rfl, rfl, ?_⟩
  · rw [generate_gestures_device_count_eq false ⟨3, 2, 1⟩ c5Lm c5Gw c5Pd
      (0 : ℚ) [⟨"a", 0, 5⟩] none [(0 : ℚ), 0] 3 rfl hN, r3]
    rfl
  · show ¬ ([(4 : ℚ) / 3, 4] = pyTail 2 [(0 : ℚ), 0, 4])
    rw [show pyTail 2 [(0 : ℚ), 0, 4] = [0, 4] from rfl]
    norm_num

/-- C5 (amended): the seed invariant holds on a CUDA device — line 20
selects CUDA when available, and there line 75's `.cpu().numpy()` copies
the raw output — and on any device whenever `2 * n_pre_poses ≤ n_poses`,
where the blend-rewritten head of a stored window (frames
`0..n_pre_poses-1`) and the tail sliced at line 69 (the last `n_pre_poses`
frames) are disjoint.  Under either condition, for every window `i` of a
run seeded from the mean pose the seed context fed to the predictor has
exactly `n_pre_poses` frames; for `i = 0` it is the global mean pose
repeated `n_pre_poses` times, and for `i > 0` it is the last
`n_pre_poses` frames of window `i-1`'s raw, pre-blend predictor output.
On a CPU device with `n_poses < 2 * n_pre_poses`, the numpy view aliases
the tensor and the seeds of windows `i ≥ 2` instead contain blend-mutated
frames. -/
theorem c5_seed_context_device [AddCommMonoid V] [Module ℚ V] (cuda : Bool)
    (a : Args) (lm : LangModel) (gw : ℚ → ℚ → List Word) (mean : V)
    (f : List ℤ → ℕ → List V → List V) (words : List Word)
    (h1 : 1 ≤ a.n_pre_poses) (h2 : a.n_pre_poses ≤ a.n_poses)
    (hdev : cuda = true ∨ 2 * a.n_pre_poses ≤ a.n_poses)
    (hf : ∀ wi k ps, (f wi k ps).length = a.n_poses)
    (hN : 1 ≤ (num_subdivision_capped a (clipLen words)).toNat) :
    ∃ st : GGState V,
      generate_gestures_device cuda a mean lm gw
        (fun wi k ps => (Except.ok (f wi k ps) : Except ε (List V)))
        words none = .ok st ∧
      st.seeds.length = (num_subdivision_capped a (clipLen words)).toNat ∧
      (∀ i, i < st.seeds.length → (st.seeds.getD i []).length = a.n_pre_poses) ∧
      st.seeds.getD 0 [] = List.replicate a.n_pre_poses mean ∧
      (∀ i, i + 1 < st.seeds.length →
        st.seeds.getD (i + 1) [] =
          (rawsOf a lm gw f (List.replicate a.n_pre_poses mean) i).drop
            ((rawsOf a lm gw f (List.replicate a.n_pre_poses mean) i).length
              - a.n_pre_poses)) := by
  obtain ⟨st, hok, hcalls, hseeds⟩ :=
    generate_gestures_device_closedForm cuda a lm gw
      (fun wi k ps => (Except.ok (f wi k ps) : Except ε (List V))) mean words
      none (List.replicate a.n_pre_poses mean)
      (rawsOf a lm gw f (List.replicate a.n_pre_poses mean)) rfl h1 h2 hdev hN
      (fun i _ => rawsOf_length a lm gw f _ hf i)
      (fun i _ => rawsOf_pred_ok a lm gw f _ i)
  have hlen : st.seeds.length = (num_subdivision_capped a (clipLen words)).toNat := by
    rw [hseeds]
    simp
  refine ⟨st, hok, hlen, ?_, ?_, ?_⟩
  · intro i hi
    rw [hlen] at hi
    rw [hseeds, getD_map_range _ _ _ hi]
    cases i with
    | zero => simp [seedAt]
    | succ j =>
      show (pyTail a.n_pre_poses
        (rawsOf a lm gw f (List.replicate a.n_pre_poses mean) j)).length =
          a.n_pre_poses
      exact pyTail_length _ (by omega) _
        (by rw [rawsOf_length a lm gw f _ hf j]; exact h2)
  · rw [hseeds, getD_map_range _ _ _ (by omega)]
    rfl
  · intro i hi
    rw [hlen] at hi
    rw [hseeds, getD_map_range _ _ _ hi]
    show pyTail a.n_pre_poses
        (rawsOf a lm gw f (List.replicate a.n_pre_poses mean) i) = _
    rw [pyTail_eq_drop _ (by omega)]

/-- Concrete instance of `c5_seed_context_device` on the CPU side of the
condition: `n_poses = 2`, `n_pre_poses = 1` (so `2 * n_pre_poses ≤
n_poses`), framerate 1, clip length 4, predictor output `[4, 9]`. -/
theorem c5_seed_context_device_witness :
    ∃ st : GGState ℚ,
      generate_gestures_device false ⟨2, 1, 1⟩ (0 : ℚ) ⟨1, 2, 3, []⟩
        (fun _ _ => [])
        (fun wi k ps => (Except.ok ((fun _ _ _ => [4, 9]) wi k ps) :
          Except Unit (List ℚ))) [⟨"a", 0, 4⟩] none = .ok st ∧
      st.seeds.length =
        (num_subdivision_capped ⟨2, 1, 1⟩ (clipLen [⟨"a", 0, 4⟩])).toNat ∧
      (∀ i, i < st.seeds.length → (st.seeds.getD i []).length = 1) ∧
      st.seeds.getD 0 [] = List.replicate 1 (0 : ℚ) ∧
      (∀ i, i + 1 < st.seeds.length →
        st.seeds.getD (i + 1) [] =
          (rawsOf ⟨2, 1, 1⟩ ⟨1, 2, 3, []⟩ (fun _ _ => []) (fun _ _ _ => [4, 9])
            (List.replicate 1 (0 : ℚ)) i).drop
            ((rawsOf ⟨2, 1, 1⟩ ⟨1, 2, 3, []⟩ (fun _ _ => []) (fun _ _ _ => [4, 9])
              (List.replicate 1 (0 : ℚ)) i).length - 1)) :=
  c5_seed_context_device false ⟨2, 1, 1⟩ ⟨1, 2, 3, []⟩ (fun _ _ => []) (0 : ℚ)
    (fun _ _ _ => [4, 9]) [⟨"a", 0, 4⟩] (by norm_num) (by norm_num)
    (Or.inr (by norm_num)) (fun _ _ _ => rfl)
    (by
      have h : num_subdivision ⟨2, 1, 1⟩ (clipLen [⟨"a", 0, 4⟩]) = 3 := by
        norm_num [num_subdivision, unit_time, stride_time, clipLen]
      rw [num_subdivision_capped, h]
      norm_num)
